import Mathlib

/-! tools/libxc/xc_misc.c : marshaling helpers of the control library

A shallow embedding of the functions of `xc_misc.c` that the specification
talks about, followed by the theorems proved about them.

Conventions of the embedding

* C `int` is a 32-bit two's complement integer, `unsigned` / `uint32_t` a
  32-bit unsigned integer.  Values are kept in `Int` / `Nat` and every
  operation that can leave the range is followed by the explicit conversion
  (`to_int`, `% 4294967296`, `% 256`).
* The privileged side is a parameter: every function that invokes it takes the
  reply (status and envelope after the call) or a function computing it.
* `static` variables are passed in and handed back.
* Ghost data (the log of staging events, the list of invocations of a loop)
  is recorded next to the values the C code computes; it never influences them.
-/

namespace XcMisc

/-! ## Machine integers -/

/-- Conversion of an integer value to C `int` (32-bit two's complement wrap). -/
def to_int (x : Int) : Int := (x + 2147483648) % 4294967296 - 2147483648

/-- C integer division on `int`: truncation toward zero. -/
def c_div (a b : Int) : Int := Int.tdiv a b

/-! ## Cardinality discovery and bitmap sizes (lines 24-84) -/

/-- Modelled from the spec: the declaration of `xc_physinfo_t` is not in this
file.  These are the fields this file reads.  The spec leaves the layout to the
hypercall ABI, in which they are unsigned 32-bit integers: each holds a value
below `2^32`.  (For an unsigned field of any width of at least 32 bits the
value that ends up in the `int` cache is the same, `to_int (max_id + 1)`.) -/
structure xc_physinfo_t where
  nr_cpus : Nat
  max_cpu_id : Nat
  max_node_id : Nat
deriving DecidableEq, Repr

/-- What the privileged side answers to one physical-info request: the status
of `do_sysctl` and the envelope it leaves behind. -/
structure PhysinfoReply where
  status : Int
  info : xc_physinfo_t
deriving DecidableEq, Repr

/-- `xc_physinfo`: on a non-zero status the caller's structure is left as it
was and the status is returned; on status 0 the envelope is copied out. -/
def xc_physinfo (reply : PhysinfoReply) (put_info : xc_physinfo_t) : Int × xc_physinfo_t :=
  if reply.status ≠ 0 then (reply.status, put_info) else (0, reply.info)

/-- Result of one call of a cached cardinality query: the value returned, the
`static` cache afterwards and the number of privileged calls it issued. -/
structure CachedQuery where
  ret : Int
  cache : Int
  queries : Nat
deriving DecidableEq, Repr

/-- `xc_get_max_cpus`.  `max_cpus` is the `static int` cache (0 = empty),
`physinfo` the uninitialised local structure. -/
def xc_get_max_cpus (max_cpus : Int) (physinfo : xc_physinfo_t) (reply : PhysinfoReply) :
    CachedQuery :=
  if max_cpus ≠ 0 then ⟨max_cpus, max_cpus, 0⟩
  else
    let r := xc_physinfo reply physinfo
    if r.1 = 0 then
      let v := to_int (((r.2.max_cpu_id + 1) % 4294967296 : Nat) : Int)
      ⟨v, v, 1⟩
    else ⟨-1, max_cpus, 1⟩

/-- `xc_get_online_cpus`: no cache, the number of online CPUs or -1. -/
def xc_get_online_cpus (physinfo : xc_physinfo_t) (reply : PhysinfoReply) : Int :=
  let r := xc_physinfo reply physinfo
  if r.1 = 0 then to_int (r.2.nr_cpus : Int) else -1

/-- `xc_get_max_nodes`.  `max_nodes` is the `static int` cache (0 = empty). -/
def xc_get_max_nodes (max_nodes : Int) (physinfo : xc_physinfo_t) (reply : PhysinfoReply) :
    CachedQuery :=
  if max_nodes ≠ 0 then ⟨max_nodes, max_nodes, 0⟩
  else
    let r := xc_physinfo reply physinfo
    if r.1 = 0 then
      let v := to_int (((r.2.max_node_id + 1) % 4294967296 : Nat) : Int)
      ⟨v, v, 1⟩
    else ⟨-1, max_nodes, 1⟩

/-- `xc_get_cpumap_size`: the `ret` field is the size returned, `cache` and
`queries` are those of the underlying `xc_get_max_cpus`. -/
def xc_get_cpumap_size (cache : Int) (physinfo : xc_physinfo_t) (reply : PhysinfoReply) :
    CachedQuery :=
  let q := xc_get_max_cpus cache physinfo reply
  let max_cpus := q.ret
  if max_cpus < 0 then ⟨-1, q.cache, q.queries⟩
  else ⟨c_div (to_int (max_cpus + 7)) 8, q.cache, q.queries⟩

/-- `xc_get_nodemap_size`. -/
def xc_get_nodemap_size (cache : Int) (physinfo : xc_physinfo_t) (reply : PhysinfoReply) :
    CachedQuery :=
  let q := xc_get_max_nodes cache physinfo reply
  let max_nodes := q.ret
  if max_nodes < 0 then ⟨-1, q.cache, q.queries⟩
  else ⟨c_div (to_int (max_nodes + 7)) 8, q.cache, q.queries⟩

/-- A sequence of calls of `xc_get_max_cpus` on one process: the i-th reply is
what the privileged side answers if the i-th call asks.  Each call yields the
value it returns and the number of privileged calls it issued. -/
def max_cpus_calls (physinfo : xc_physinfo_t) : Int → List PhysinfoReply → List (Int × Nat)
  | _, [] => []
  | cache, r :: rs =>
    let q := xc_get_max_cpus cache physinfo r
    (q.ret, q.queries) :: max_cpus_calls physinfo q.cache rs

/-- A sequence of calls of `xc_get_max_nodes` on one process. -/
def max_nodes_calls (physinfo : xc_physinfo_t) : Int → List PhysinfoReply → List (Int × Nat)
  | _, [] => []
  | cache, r :: rs =>
    let q := xc_get_max_nodes cache physinfo r
    (q.ret, q.queries) :: max_nodes_calls physinfo q.cache rs

/-! ## Byte-granular bitmaps (lines 106-122)

`xc_cpumap_t` is a pointer to bytes (the comment above the macros: "byte
versions"), so `sizeof(*map)` is 1.  A map is the list of its bytes.  The id is
a C `int`; the macros divide it by a `size_t`, so a negative id is converted
to a huge unsigned value and indexes far outside any map.  An access outside
the map is undefined behaviour in C and is `none` here. -/

/-- Modelled from the spec: the typedef `xc_cpumap_t` is not in this file; the
spec's ResourceBitmap is "an ordered byte sequence" and the comment above the
macros speaks of "byte versions", so `sizeof(*map)` is 1 and
`BITS_PER_CPUMAP(map)`, which is `sizeof(*map) * 8`, is 8. -/
def BITS_PER_CPUMAP : Nat := 1 * 8

/-- Index used by `CPUMAP_ENTRY(cpu, map)`, for an id `0 <= cpu`. -/
def CPUMAP_ENTRY (cpu : Nat) : Nat := cpu / BITS_PER_CPUMAP

/-- `CPUMAP_SHIFT(cpu, map)`, for an id `0 <= cpu`. -/
def CPUMAP_SHIFT (cpu : Nat) : Nat := cpu % BITS_PER_CPUMAP

/-- `xc_cpumap_clearcpu`: `entry &= ~(1U << shift)`, the complement taken on
32 bits, the result stored into a byte. -/
def xc_cpumap_clearcpu (cpu : Int) (map : List Nat) : Option (List Nat) :=
  if cpu < 0 then none
  else
    match map[CPUMAP_ENTRY cpu.toNat]? with
    | none => none
    | some b =>
      some (map.set (CPUMAP_ENTRY cpu.toNat)
        ((b &&& (4294967295 - (1 <<< CPUMAP_SHIFT cpu.toNat) % 4294967296)) % 256))

/-- `xc_cpumap_setcpu`: `entry |= (1U << shift)`, the result stored into a byte. -/
def xc_cpumap_setcpu (cpu : Int) (map : List Nat) : Option (List Nat) :=
  if cpu < 0 then none
  else
    match map[CPUMAP_ENTRY cpu.toNat]? with
    | none => none
    | some b =>
      some (map.set (CPUMAP_ENTRY cpu.toNat)
        ((b ||| ((1 <<< CPUMAP_SHIFT cpu.toNat) % 4294967296)) % 256))

/-- `xc_cpumap_testcpu`: `(entry >> shift) & 1`. -/
def xc_cpumap_testcpu (cpu : Int) (map : List Nat) : Option Int :=
  if cpu < 0 then none
  else
    match map[CPUMAP_ENTRY cpu.toNat]? with
    | none => none
    | some b => some (((b >>> CPUMAP_SHIFT cpu.toNat) &&& 1 : Nat) : Int)

/-- Setting several ids one after the other. -/
def setcpus : List Int → List Nat → Option (List Nat)
  | [], map => some map
  | cpu :: cpus, map => (xc_cpumap_setcpu cpu map).bind (setcpus cpus)

/-! ## The staging layer

`xc_hypercall_bounce_pre`, `xc_hypercall_bounce_post`,
`xc_hypercall_buffer_alloc` and `xc_hypercall_buffer_free` are called by this
file and defined elsewhere in the library. -/

/-- The buffer descriptors declared in this file, by the name they are
declared under. -/
inductive Buf
  | buffer | keys | cputopo | meminfo | distance | devs | nodes | mc | info | arg | dirty_bitmap
deriving DecidableEq, Repr

/-- Operation codes of the privileged invocations issued by this file. -/
inductive Op
  | XEN_SYSCTL_readconsole | XEN_SYSCTL_debug_keys | XEN_SYSCTL_cputopoinfo
  | XEN_SYSCTL_numainfo | XEN_SYSCTL_pcitopoinfo | XEN_SYSCTL_getcpuinfo
  | HYPERVISOR_mca
  | HVMOP_set_pci_intx_level | HVMOP_set_isa_irq_level | HVMOP_set_pci_link_route
  | HVMOP_inject_msi | HVMOP_track_dirty_vram | HVMOP_modified_memory
  | HVMOP_set_mem_type | HVMOP_inject_trap
deriving DecidableEq, Repr

/-- Ghost events: a staging region was allocated for a descriptor, the region
of a descriptor was released, a privileged invocation was issued. -/
inductive Event
  | alloc (b : Buf)
  | release (b : Buf)
  | invoke (op : Op)
deriving DecidableEq, Repr

/-- Ghost state of the staging layer within one call frame: the descriptors
that hold a staged region, and the events so far. -/
structure Staging where
  live : List Buf
  log : List Event
deriving DecidableEq, Repr

/-- A call frame starts with no staged region. -/
def Staging.init : Staging := ⟨[], []⟩

/-- Outcomes of the prepare steps, chosen by the environment: the value
`xc_hypercall_bounce_pre` returns for a descriptor (0 = staged), and whether
`xc_hypercall_buffer_alloc` yields a region (false = NULL). -/
structure Oracle where
  bounce_pre : Buf → Int
  buffer_alloc : Buf → Bool

/-- Modelled from the spec: `xc_hypercall_bounce_pre` is not in this file.
"`prepare` allocates a region ... Failure of `prepare` (allocation failure)":
when it returns 0 a region has been allocated for the descriptor, when it
returns non-zero nothing has been allocated. -/
def xc_hypercall_bounce_pre (o : Oracle) (b : Buf) (s : Staging) : Int × Staging :=
  if o.bounce_pre b = 0 then (0, ⟨b :: s.live, s.log ++ [Event.alloc b]⟩)
  else (o.bounce_pre b, s)

/-- Modelled from the spec: `xc_hypercall_bounce_post` is not in this file.
"`finalize` ... releases the staged region"; a staged region "exists only
between its allocation and its release", so on a descriptor that holds no
region (its prepare failed or never ran) there is nothing to release. -/
def xc_hypercall_bounce_post (b : Buf) (s : Staging) : Staging :=
  if b ∈ s.live then ⟨s.live.erase b, s.log ++ [Event.release b]⟩ else s

/-- Modelled from the spec: `xc_hypercall_buffer_alloc` is not in this file.
It yields a region (true) or NULL (false, nothing allocated). -/
def xc_hypercall_buffer_alloc (o : Oracle) (b : Buf) (s : Staging) : Bool × Staging :=
  if o.buffer_alloc b then (true, ⟨b :: s.live, s.log ++ [Event.alloc b]⟩)
  else (false, s)

/-- Modelled from the spec: `xc_hypercall_buffer_free` is not in this file.
It releases the region of the descriptor, if it holds one. -/
def xc_hypercall_buffer_free (b : Buf) (s : Staging) : Staging :=
  if b ∈ s.live then ⟨s.live.erase b, s.log ++ [Event.release b]⟩ else s

/-- Ghost record of one privileged invocation (`do_sysctl`, `xencall1`,
`xencall2`). -/
def invoked (op : Op) (s : Staging) : Staging := ⟨s.live, s.log ++ [Event.invoke op]⟩

/-- Number of staging allocations in a log. -/
def allocations (log : List Event) : Nat :=
  (log.filter (fun e => match e with | Event.alloc _ => true | _ => false)).length

/-- Number of staging releases in a log. -/
def releases (log : List Event) : Nat :=
  (log.filter (fun e => match e with | Event.release _ => true | _ => false)).length

/-- Number of privileged invocations in a log. -/
def invocations (log : List Event) : Nat :=
  (log.filter (fun e => match e with | Event.invoke _ => true | _ => false)).length

/-- What a function hands back: its return value, the caller's scalar output
variables after the call, and the ghost staging state. -/
structure Outcome (α : Type) where
  ret : Int
  out : α
  st : Staging
deriving DecidableEq

/-! ## Functions that stage a buffer around one `do_sysctl` -/

/-- Scalar fields of the readconsole envelope that this file sets and reads
(the structure is declared outside this file). -/
structure xen_sysctl_readconsole where
  clear : Int
  incremental : Int
  index : Nat
  count : Nat
deriving DecidableEq, Repr

/-- The caller's `*pnr_chars` and `*pindex` (`none`: `pindex` is NULL). -/
structure ConsoleVars where
  pnr_chars : Nat
  pindex : Option Nat
deriving DecidableEq, Repr

/-- The envelope `xc_readconsolering` passes to `do_sysctl`: `count`, `clear`
and `incremental = 0` are set; `index` and `incremental` are set only when
`pindex` is not NULL.  `sysctl` is the uninitialised envelope. -/
def readconsole_envelope (sysctl : xen_sysctl_readconsole) (v : ConsoleVars)
    (clear incremental : Int) : xen_sysctl_readconsole :=
  let nr_chars := v.pnr_chars
  let sysctl1 : xen_sysctl_readconsole := ⟨clear, 0, sysctl.index, nr_chars⟩
  match v.pindex with
  | some idx => ⟨sysctl1.clear, incremental, idx, sysctl1.count⟩
  | none => sysctl1

/-- `xc_readconsolering`.  `sysctl` is the uninitialised envelope,
`do_sysctl` the privileged side (status and envelope after the call). -/
def xc_readconsolering (o : Oracle)
    (do_sysctl : xen_sysctl_readconsole → Int × xen_sysctl_readconsole)
    (sysctl : xen_sysctl_readconsole) (v : ConsoleVars) (clear incremental : Int) :
    Outcome ConsoleVars :=
  let p := xc_hypercall_bounce_pre o Buf.buffer Staging.init
  if p.1 ≠ 0 then ⟨-1, v, p.2⟩
  else
    let r := do_sysctl (readconsole_envelope sysctl v clear incremental)
    let s1 := invoked Op.XEN_SYSCTL_readconsole p.2
    let ret := r.1
    let v1 : ConsoleVars :=
      if ret = 0 then
        ⟨r.2.count, match v.pindex with | some _ => some r.2.index | none => none⟩
      else v
    let s2 := xc_hypercall_bounce_post Buf.buffer s1
    ⟨ret, v1, s2⟩

/-- `xc_send_debug_keys`; `len` is `strlen(keys)`, the envelope field is
`nr_keys`. -/
def xc_send_debug_keys (o : Oracle) (do_sysctl : Int → Int) (len : Int) : Outcome Unit :=
  let p := xc_hypercall_bounce_pre o Buf.keys Staging.init
  if p.1 ≠ 0 then ⟨-1, (), p.2⟩
  else
    let ret := do_sysctl len
    let s1 := invoked Op.XEN_SYSCTL_debug_keys p.2
    let s2 := xc_hypercall_bounce_post Buf.keys s1
    ⟨ret, (), s2⟩

/-- `xc_cputopoinfo`; the envelope field is `num_cpus`, the caller's scalar is
`*max_cpus`. -/
def xc_cputopoinfo (o : Oracle) (do_sysctl : Nat → Int × Nat) (max_cpus : Nat) : Outcome Nat :=
  let p := xc_hypercall_bounce_pre o Buf.cputopo Staging.init
  if p.1 ≠ 0 then
    -- goto out
    ⟨p.1, max_cpus, xc_hypercall_bounce_post Buf.cputopo p.2⟩
  else
    let r := do_sysctl max_cpus
    let s1 := invoked Op.XEN_SYSCTL_cputopoinfo p.2
    if r.1 ≠ 0 then
      -- goto out
      ⟨r.1, max_cpus, xc_hypercall_bounce_post Buf.cputopo s1⟩
    else
      ⟨r.1, r.2, xc_hypercall_bounce_post Buf.cputopo s1⟩

/-- `xc_numainfo`; the envelope field is `num_nodes`, the caller's scalar is
`*max_nodes`. -/
def xc_numainfo (o : Oracle) (do_sysctl : Nat → Int × Nat) (max_nodes : Nat) : Outcome Nat :=
  let p := xc_hypercall_bounce_pre o Buf.meminfo Staging.init
  if p.1 ≠ 0 then
    ⟨p.1, max_nodes,
      xc_hypercall_bounce_post Buf.distance (xc_hypercall_bounce_post Buf.meminfo p.2)⟩
  else
    let q := xc_hypercall_bounce_pre o Buf.distance p.2
    if q.1 ≠ 0 then
      ⟨q.1, max_nodes,
        xc_hypercall_bounce_post Buf.distance (xc_hypercall_bounce_post Buf.meminfo q.2)⟩
    else
      let r := do_sysctl max_nodes
      let s1 := invoked Op.XEN_SYSCTL_numainfo q.2
      if r.1 ≠ 0 then
        ⟨r.1, max_nodes,
          xc_hypercall_bounce_post Buf.distance (xc_hypercall_bounce_post Buf.meminfo s1)⟩
      else
        ⟨r.1, r.2,
          xc_hypercall_bounce_post Buf.distance (xc_hypercall_bounce_post Buf.meminfo s1)⟩

/-- `xc_getcpuinfo`; `nr_cpus` is the caller's `*nr_cpus` (`none`: NULL
pointer).  `do_sysctl` gets `max_cpus` and yields the status and the `nr_cpus`
field of the envelope after the call (unsigned 32-bit, stored into an `int`). -/
def xc_getcpuinfo (o : Oracle) (do_sysctl : Int → Int × Nat) (max_cpus : Int)
    (nr_cpus : Option Int) : Outcome (Option Int) :=
  let p := xc_hypercall_bounce_pre o Buf.info Staging.init
  if p.1 ≠ 0 then ⟨-1, nr_cpus, p.2⟩
  else
    let r := do_sysctl max_cpus
    let s1 := invoked Op.XEN_SYSCTL_getcpuinfo p.2
    let rc := r.1
    let s2 := xc_hypercall_bounce_post Buf.info s1
    let nr_cpus1 : Option Int :=
      match nr_cpus with
      | some _ => some (to_int (r.2 : Int))
      | none => none
    ⟨rc, nr_cpus1, s2⟩

/-- `xc_mca_op` (x86 only); `xencall1` is the value the invocation returns. -/
def xc_mca_op (o : Oracle) (xencall1 : Int) : Outcome Unit :=
  let p := xc_hypercall_bounce_pre o Buf.mc Staging.init
  if p.1 ≠ 0 then ⟨-1, (), p.2⟩
  else
    let ret := xencall1
    let s1 := invoked Op.HYPERVISOR_mca p.2
    ⟨ret, (), xc_hypercall_bounce_post Buf.mc s1⟩

/-! ## Chunked bulk query: `xc_pcitopoinfo` (lines 269-307) -/

/-- Scalar part of the pcitopoinfo envelope (the structure is declared outside
this file): the number of devices, an unsigned 32-bit field, and the offsets
that `set_xen_guest_handle_offset` gives the `devs` and `nodes` handles into
the staged arrays. -/
structure xen_sysctl_pcitopoinfo where
  num_devs : Nat
  devs : Nat
  nodes : Nat
deriving DecidableEq, Repr

/-- Ghost record of one invocation of the loop: the envelope passed, the
status returned and the `num_devs` field read back. -/
structure PciCall where
  req : xen_sysctl_pcitopoinfo
  status : Int
  reported : Nat
deriving DecidableEq, Repr

/-- State of the chunk loop: whether the loop has been left, `ret`,
`processed`, and the invocations so far. -/
structure PciLoop where
  finished : Bool
  ret : Int
  processed : Nat
  calls : List PciCall
deriving DecidableEq, Repr

/-- The `while ( processed < num_devs )` loop, at most `fuel` iterations.
`do_sysctl k env` is what the privileged side answers to the k-th invocation
(k = 0, 1, ...) when passed `env`: the status and the `num_devs` field after
the call (unsigned 32-bit).  `processed` is `unsigned`: the addition wraps. -/
def pcitopoinfo_loop (do_sysctl : Nat → xen_sysctl_pcitopoinfo → Int × Nat) (num_devs : Nat) :
    Nat → Int → Nat → List PciCall → PciLoop
  | 0, ret, processed, calls => ⟨decide (¬ processed < num_devs), ret, processed, calls⟩
  | fuel + 1, ret, processed, calls =>
    if processed < num_devs then
      let env : xen_sysctl_pcitopoinfo := ⟨num_devs - processed, processed, processed⟩
      let r := do_sysctl calls.length env
      if r.1 ≠ 0 then
        -- break
        ⟨true, r.1, processed, calls ++ [⟨env, r.1, r.2⟩]⟩
      else
        pcitopoinfo_loop do_sysctl num_devs fuel r.1 ((processed + r.2) % 4294967296)
          (calls ++ [⟨env, r.1, r.2⟩])
    else ⟨true, ret, processed, calls⟩

/-- Statuses of the invocations recorded by a loop state, in order. -/
def statuses (l : PciLoop) : List Int := l.calls.map (fun c => c.status)

/-- Ghost: every invocation of the loop is logged. -/
def invoked_each (calls : List PciCall) (s : Staging) : Staging :=
  ⟨s.live, s.log ++ calls.map (fun _ => Event.invoke Op.XEN_SYSCTL_pcitopoinfo)⟩

/-- `xc_pcitopoinfo`, the loop bounded by `fuel`; `none` when the loop has not
been left within `fuel` iterations. -/
def xc_pcitopoinfo (o : Oracle) (do_sysctl : Nat → xen_sysctl_pcitopoinfo → Int × Nat)
    (fuel : Nat) (num_devs : Nat) : Option (Outcome PciLoop) :=
  let processed : Nat := 0
  let p := xc_hypercall_bounce_pre o Buf.devs Staging.init
  if p.1 ≠ 0 then
    some ⟨p.1, ⟨true, p.1, processed, []⟩,
      xc_hypercall_bounce_post Buf.nodes (xc_hypercall_bounce_post Buf.devs p.2)⟩
  else
    let q := xc_hypercall_bounce_pre o Buf.nodes p.2
    if q.1 ≠ 0 then
      some ⟨q.1, ⟨true, q.1, processed, []⟩,
        xc_hypercall_bounce_post Buf.nodes (xc_hypercall_bounce_post Buf.devs q.2)⟩
    else
      let l := pcitopoinfo_loop do_sysctl num_devs fuel q.1 processed []
      if l.finished then
        some ⟨l.ret, l,
          xc_hypercall_bounce_post Buf.nodes
            (xc_hypercall_bounce_post Buf.devs (invoked_each l.calls q.2))⟩
      else none

/-- The privileged side that always succeeds and handles at most `c` devices
per invocation: it reports `min(requested, c)`. -/
def capped (c : Nat) : Nat → xen_sysctl_pcitopoinfo → Int × Nat :=
  fun _ env => (0, min env.num_devs c)

/-- The privileged side that always succeeds and always reports `n` devices. -/
def reporting (n : Nat) : Nat → xen_sysctl_pcitopoinfo → Int × Nat :=
  fun _ _ => (0, n)

/-- A privileged side that answers by a fixed sequence of replies, whatever
the request: (0, 2), (0, 2), then status -1 with 3 left in the envelope. -/
def failing_third : Nat → xen_sysctl_pcitopoinfo → Int × Nat :=
  fun k _ => if k = 2 then (-1, 3) else (0, 2)

/-! ## Two-phase query: lock profiling (lines 407-444) -/

/-- Scalar fields of the lockprof envelope that this file sets and reads
besides the sub-command (the structure is declared outside this file); both
are unsigned 32-bit. -/
structure xen_sysctl_lockprof_op where
  max_elem : Nat
  nr_elem : Nat
deriving DecidableEq, Repr

/-- `xc_lockprof_query_number`: the value returned and `*n_elems` after the
call.  `sysctl` is the uninitialised envelope; `max_elem` is set to 0. -/
def xc_lockprof_query_number
    (do_sysctl : xen_sysctl_lockprof_op → Int × xen_sysctl_lockprof_op)
    (sysctl : xen_sysctl_lockprof_op) : Int × Nat :=
  let sysctl1 : xen_sysctl_lockprof_op := ⟨0, sysctl.nr_elem⟩
  let r := do_sysctl sysctl1
  let rc := r.1
  (rc, r.2.nr_elem)

/-- `xc_lockprof_query`: the value returned and `*n_elems` after the call;
`n_elems` is `*n_elems` before the call, the capacity of the data buffer,
passed as `max_elem`. -/
def xc_lockprof_query
    (do_sysctl : xen_sysctl_lockprof_op → Int × xen_sysctl_lockprof_op)
    (sysctl : xen_sysctl_lockprof_op) (n_elems : Nat) : Int × Nat :=
  let sysctl1 : xen_sysctl_lockprof_op := ⟨n_elems, sysctl.nr_elem⟩
  let r := do_sysctl sysctl1
  let rc := r.1
  (rc, r.2.nr_elem)

/-! ## Device-model operations: one allocated argument buffer -/

/-- Common body of `xc_hvm_set_pci_intx_level`, `xc_hvm_set_isa_irq_level`,
`xc_hvm_set_pci_link_route`, `xc_hvm_inject_msi`, `xc_hvm_modified_memory`,
`xc_hvm_set_mem_type` and `xc_hvm_inject_trap`: allocate `arg`, return -1 if
that fails, fill it in, invoke, free, return the status.  `xencall2` is the
value the invocation returns. -/
def hvm_op_with_arg (op : Op) (o : Oracle) (xencall2 : Int) : Outcome Unit :=
  let a := xc_hypercall_buffer_alloc o Buf.arg Staging.init
  if a.1 = false then ⟨-1, (), a.2⟩
  else
    let rc := xencall2
    let s1 := invoked op a.2
    ⟨rc, (), xc_hypercall_buffer_free Buf.arg s1⟩

/-- `xc_hvm_set_pci_intx_level`. -/
def xc_hvm_set_pci_intx_level := hvm_op_with_arg Op.HVMOP_set_pci_intx_level

/-- `xc_hvm_set_isa_irq_level`. -/
def xc_hvm_set_isa_irq_level := hvm_op_with_arg Op.HVMOP_set_isa_irq_level

/-- `xc_hvm_set_pci_link_route`. -/
def xc_hvm_set_pci_link_route := hvm_op_with_arg Op.HVMOP_set_pci_link_route

/-- `xc_hvm_inject_msi`. -/
def xc_hvm_inject_msi := hvm_op_with_arg Op.HVMOP_inject_msi

/-- `xc_hvm_modified_memory`. -/
def xc_hvm_modified_memory := hvm_op_with_arg Op.HVMOP_modified_memory

/-- `xc_hvm_set_mem_type`. -/
def xc_hvm_set_mem_type := hvm_op_with_arg Op.HVMOP_set_mem_type

/-- `xc_hvm_inject_trap`. -/
def xc_hvm_inject_trap := hvm_op_with_arg Op.HVMOP_inject_trap

/-- `xc_hvm_track_dirty_vram`: an allocated argument buffer and a bounced
bitmap.  `arg == NULL || xc_hypercall_bounce_pre(...)` short-circuits. -/
def xc_hvm_track_dirty_vram (o : Oracle) (xencall2 : Int) : Outcome Unit :=
  let a := xc_hypercall_buffer_alloc o Buf.arg Staging.init
  let p : Bool × Staging :=
    if a.1 = false then (true, a.2)
    else
      let q := xc_hypercall_bounce_pre o Buf.dirty_bitmap a.2
      (decide (q.1 ≠ 0), q.2)
  if p.1 then
    -- rc = -1; goto out
    ⟨-1, (),
      xc_hypercall_bounce_post Buf.dirty_bitmap (xc_hypercall_buffer_free Buf.arg p.2)⟩
  else
    let rc := xencall2
    let s1 := invoked Op.HVMOP_track_dirty_vram p.2
    ⟨rc, (), xc_hypercall_bounce_post Buf.dirty_bitmap (xc_hypercall_buffer_free Buf.arg s1)⟩

/-- Balance of a call frame at return: no descriptor still holds a region,
as many allocations as releases, and per descriptor at most one allocation,
matched by exactly as many releases. -/
def Balanced (s : Staging) : Prop :=
  s.live = [] ∧ allocations s.log = releases s.log ∧
    ∀ b : Buf, s.log.count (Event.alloc b) = s.log.count (Event.release b) ∧
      s.log.count (Event.release b) ≤ 1

/-! # Theorems -/

/-! ## Bitmap operations -/

theorem shift_and_one (x t : Nat) : (x >>> t) &&& 1 = (x.testBit t).toNat := by
  rw [Nat.toNat_testBit, Nat.and_one_is_mod, Nat.shiftRight_eq_div_pow]

theorem testBit_setmask (s t : Nat) (hs : s < 8) (ht : t < 8) :
    Nat.testBit ((1 <<< s) % 4294967296) t = decide (t = s) := by
  interval_cases s <;> interval_cases t <;> decide

theorem testBit_clearmask (s t : Nat) (hs : s < 8) (ht : t < 8) :
    Nat.testBit (4294967295 - (1 <<< s) % 4294967296) t = decide (t ≠ s) := by
  interval_cases s <;> interval_cases t <;> decide

theorem set_same (b s : Nat) (hs : s < 8) :
    (((b ||| ((1 <<< s) % 4294967296)) % 256) >>> s) &&& 1 = 1 := by
  rw [shift_and_one, show (256:Nat) = 2^8 by norm_num, Nat.testBit_mod_two_pow, Nat.testBit_or,
    testBit_setmask s s hs hs]
  simp [hs]

theorem set_other (b s t : Nat) (hs : s < 8) (ht : t < 8) (h : t ≠ s) :
    (((b ||| ((1 <<< s) % 4294967296)) % 256) >>> t) &&& 1 = (b >>> t) &&& 1 := by
  rw [shift_and_one, shift_and_one, show (256:Nat) = 2^8 by norm_num, Nat.testBit_mod_two_pow,
    Nat.testBit_or, testBit_setmask s t hs ht]
  simp [ht, h]

theorem clear_same (b s : Nat) (hs : s < 8) :
    (((b &&& (4294967295 - (1 <<< s) % 4294967296)) % 256) >>> s) &&& 1 = 0 := by
  rw [shift_and_one, show (256:Nat) = 2^8 by norm_num, Nat.testBit_mod_two_pow, Nat.testBit_and,
    testBit_clearmask s s hs hs]
  simp [hs]

theorem clear_other (b s t : Nat) (hs : s < 8) (ht : t < 8) (h : t ≠ s) :
    (((b &&& (4294967295 - (1 <<< s) % 4294967296)) % 256) >>> t) &&& 1 = (b >>> t) &&& 1 := by
  rw [shift_and_one, shift_and_one, show (256:Nat) = 2^8 by norm_num, Nat.testBit_mod_two_pow,
    Nat.testBit_and, testBit_clearmask s t hs ht]
  simp [ht, h]

/-- The value `(b >> s) & 1` is 1 exactly when `b` meets the mask `1 << s`. -/
theorem test_iff_mask (b s : Nat) :
    ((b >>> s) &&& 1 = 1 ↔ b &&& (1 <<< s) ≠ 0) ∧ ((b >>> s) &&& 1 = 0 ↔ b &&& (1 <<< s) = 0) := by
  have key : b &&& (1 <<< s) ≠ 0 ↔ b.testBit s = true := by
    rw [Nat.one_shiftLeft]
    constructor
    · intro h
      obtain ⟨i, hi⟩ := Nat.ne_zero_implies_bit_true h
      rw [Nat.testBit_and, Nat.testBit_two_pow] at hi
      simp at hi
      obtain ⟨h1, h2⟩ := hi
      subst h2
      exact h1
    · intro h h0
      have : (b &&& 2 ^ s).testBit s = true := by
        rw [Nat.testBit_and, Nat.testBit_two_pow]; simp [h]
      rw [h0] at this
      simp at this
  rw [shift_and_one]
  constructor
  · rw [key]; cases b.testBit s <;> simp
  · rw [← not_iff_not, ← ne_eq (b &&& 1 <<< s), key]; cases b.testBit s <;> simp

theorem setcpu_nat (i : Nat) (map : List Nat) (b : Nat) (hb : map[i / 8]? = some b) :
    xc_cpumap_setcpu (i : Int) map =
      some (map.set (i / 8) ((b ||| ((1 <<< (i % 8)) % 4294967296)) % 256)) := by
  have hneg : ¬ ((i : Int) < 0) := by omega
  simp only [xc_cpumap_setcpu, if_neg hneg, Int.toNat_ofNat, CPUMAP_ENTRY, CPUMAP_SHIFT,
    BITS_PER_CPUMAP, Nat.one_mul, hb]

theorem clearcpu_nat (i : Nat) (map : List Nat) (b : Nat) (hb : map[i / 8]? = some b) :
    xc_cpumap_clearcpu (i : Int) map =
      some (map.set (i / 8) ((b &&& (4294967295 - (1 <<< (i % 8)) % 4294967296)) % 256)) := by
  have hneg : ¬ ((i : Int) < 0) := by omega
  simp only [xc_cpumap_clearcpu, if_neg hneg, Int.toNat_ofNat, CPUMAP_ENTRY, CPUMAP_SHIFT,
    BITS_PER_CPUMAP, Nat.one_mul, hb]

theorem testcpu_nat (j : Nat) (map : List Nat) (b : Nat) (hb : map[j / 8]? = some b) :
    xc_cpumap_testcpu (j : Int) map = some (((b >>> (j % 8)) &&& 1 : Nat) : Int) := by
  have hneg : ¬ ((j : Int) < 0) := by omega
  simp only [xc_cpumap_testcpu, if_neg hneg, Int.toNat_ofNat, CPUMAP_ENTRY, CPUMAP_SHIFT,
    BITS_PER_CPUMAP, Nat.one_mul, hb]

theorem set_length_lt (map : List Nat) (k x : Nat) (h : k < map.length) :
    k < (map.set k x).length := by
  rw [List.length_set]; exact h

/-- Frame property on ids given as natural numbers. -/
theorem cpumap_frame (map : List Nat) (i j : Nat)
    (hi : i < 8 * map.length) (hj : j < 8 * map.length) :
    (∃ m v, xc_cpumap_setcpu (i : Int) map = some m ∧ xc_cpumap_testcpu (j : Int) map = some v ∧
        xc_cpumap_testcpu (j : Int) m = some (if j = i then 1 else v) ∧
        m.length = map.length ∧ (∀ k, k ≠ i / 8 → m[k]? = map[k]?)) ∧
    (∃ m v, xc_cpumap_clearcpu (i : Int) map = some m ∧
        xc_cpumap_testcpu (j : Int) map = some v ∧
        xc_cpumap_testcpu (j : Int) m = some (if j = i then 0 else v) ∧
        m.length = map.length ∧ (∀ k, k ≠ i / 8 → m[k]? = map[k]?)) ∧
    (∃ b, map[i / 8]? = some b ∧
        (xc_cpumap_testcpu (i : Int) map = some 1 ↔ b &&& (1 <<< (i % 8)) ≠ 0) ∧
        (xc_cpumap_testcpu (i : Int) map = some 0 ↔ b &&& (1 <<< (i % 8)) = 0)) := by
  have hik : i / 8 < map.length := by omega
  have hjk : j / 8 < map.length := by omega
  have hb : map[i / 8]? = some map[i / 8] := List.getElem?_eq_getElem hik
  have hc : map[j / 8]? = some map[j / 8] := List.getElem?_eq_getElem hjk
  have hsi : i % 8 < 8 := Nat.mod_lt _ (by norm_num)
  have hsj : j % 8 < 8 := Nat.mod_lt _ (by norm_num)
  have hv := testcpu_nat j map _ hc
  have hafter : ∀ x : Nat, xc_cpumap_testcpu (j : Int) (map.set (i / 8) x) =
      if j / 8 = i / 8 then some (((x >>> (j % 8)) &&& 1 : Nat) : Int)
      else xc_cpumap_testcpu (j : Int) map := by
    intro x
    by_cases h : j / 8 = i / 8
    · rw [if_pos h]
      apply testcpu_nat
      rw [h]
      exact List.getElem?_set_self hik
    · rw [if_neg h, hv]
      apply testcpu_nat
      rw [List.getElem?_set_ne (Ne.symm h)]
      exact hc
  refine ⟨?_, ?_, ?_⟩
  · refine ⟨_, _, setcpu_nat i map _ hb, hv, ?_, ?_, ?_⟩
    · rw [hafter]
      by_cases hji : j = i
      · subst hji
        rw [if_pos rfl, if_pos rfl, set_same _ _ hsj]
        rfl
      · rw [if_neg hji]
        by_cases hbyte : j / 8 = i / 8
        · rw [if_pos hbyte, set_other _ _ _ hsi hsj (by omega)]
          simp only [hbyte]
        · rw [if_neg hbyte, hv]
    · simp
    · intro k hk
      exact List.getElem?_set_ne (Ne.symm hk)
  · refine ⟨_, _, clearcpu_nat i map _ hb, hv, ?_, ?_, ?_⟩
    · rw [hafter]
      by_cases hji : j = i
      · subst hji
        rw [if_pos rfl, if_pos rfl, clear_same _ _ hsj]
        rfl
      · rw [if_neg hji]
        by_cases hbyte : j / 8 = i / 8
        · rw [if_pos hbyte, clear_other _ _ _ hsi hsj (by omega)]
          simp only [hbyte]
        · rw [if_neg hbyte, hv]
    · simp
    · intro k hk
      exact List.getElem?_set_ne (Ne.symm hk)
  · refine ⟨map[i / 8], hb, ?_, ?_⟩
    · rw [testcpu_nat i map _ hb, Option.some.injEq, ← (test_iff_mask _ _).1]
      norm_cast
    · rw [testcpu_nat i map _ hb, Option.some.injEq, ← (test_iff_mask _ _).2]
      norm_cast

/-- C1. For a bitmap of n bytes and ids i, j with 0 <= i, j < 8n: after
`xc_cpumap_setcpu(i, map)` the test of j gives 1 if j = i and its former value
otherwise; after `xc_cpumap_clearcpu(i, map)` it gives 0 if j = i and its former
value otherwise; bit i is the bit of mask `1 << (i % 8)` in byte `i / 8`; every
other byte is unchanged and the length stays n; and setting ids 0, 8 and 71 on a
zeroed 9-byte map gives `[0x01, 0x01, 0, 0, 0, 0, 0, 0, 0x80]`. -/
theorem cpumap_set_clear_test (map : List Nat) (i j : Int)
    (hi0 : 0 ≤ i) (hi : i < 8 * map.length) (hj0 : 0 ≤ j) (hj : j < 8 * map.length) :
    (∃ m v, xc_cpumap_setcpu i map = some m ∧ xc_cpumap_testcpu j map = some v ∧
        xc_cpumap_testcpu j m = some (if j = i then 1 else v) ∧
        m.length = map.length ∧ (∀ k : Nat, (k : Int) ≠ i / 8 → m[k]? = map[k]?)) ∧
    (∃ m v, xc_cpumap_clearcpu i map = some m ∧ xc_cpumap_testcpu j map = some v ∧
        xc_cpumap_testcpu j m = some (if j = i then 0 else v) ∧
        m.length = map.length ∧ (∀ k : Nat, (k : Int) ≠ i / 8 → m[k]? = map[k]?)) ∧
    (∃ b, map[(i / 8).toNat]? = some b ∧
        (xc_cpumap_testcpu i map = some 1 ↔ b &&& (1 <<< (i % 8).toNat) ≠ 0) ∧
        (xc_cpumap_testcpu i map = some 0 ↔ b &&& (1 <<< (i % 8).toNat) = 0)) ∧
    setcpus [0, 8, 71] (List.replicate 9 0) = some [0x01, 0x01, 0, 0, 0, 0, 0, 0, 0x80] := by
  obtain ⟨a, rfl⟩ := Int.eq_ofNat_of_zero_le hi0
  obtain ⟨c, rfl⟩ := Int.eq_ofNat_of_zero_le hj0
  have ha : a < 8 * map.length := by exact_mod_cast hi
  have hc : c < 8 * map.length := by exact_mod_cast hj
  have hdiv : ((a : Int) / 8) = ((a / 8 : Nat) : Int) := by norm_cast
  have hmod : ((a : Int) % 8) = ((a % 8 : Nat) : Int) := by norm_cast
  have heq : ((c : Int) = (a : Int)) ↔ c = a := by norm_cast
  obtain ⟨hset, hclear, hbit⟩ := cpumap_frame map a c ha hc
  refine ⟨?_, ?_, ?_, by decide⟩
  · obtain ⟨m, v, h1, h2, h3, h4, h5⟩ := hset
    refine ⟨m, v, h1, h2, ?_, h4, ?_⟩
    · rw [h3]; simp only [heq]
    · intro k hk
      apply h5
      intro hk2
      apply hk
      rw [hdiv, hk2]
  · obtain ⟨m, v, h1, h2, h3, h4, h5⟩ := hclear
    refine ⟨m, v, h1, h2, ?_, h4, ?_⟩
    · rw [h3]; simp only [heq]
    · intro k hk
      apply h5
      intro hk2
      apply hk
      rw [hdiv, hk2]
  · rw [hdiv, hmod, Int.toNat_ofNat, Int.toNat_ofNat]
    exact hbit

/-- C1 at a concrete input: a zeroed 9-byte map, i = 71, j = 8. -/
theorem cpumap_set_clear_test_witness :
    ((0 : Int) ≤ 71 ∧ (71 : Int) < 8 * (List.replicate 9 0).length ∧
      (0 : Int) ≤ 8 ∧ (8 : Int) < 8 * (List.replicate 9 0).length) ∧
    xc_cpumap_setcpu 71 (List.replicate 9 0) = some [0, 0, 0, 0, 0, 0, 0, 0, 128] ∧
    xc_cpumap_testcpu 71 [0, 0, 0, 0, 0, 0, 0, 0, 128] = some 1 ∧
    xc_cpumap_testcpu 8 [0, 0, 0, 0, 0, 0, 0, 0, 128] = some 0 ∧
    setcpus [0, 8, 71] (List.replicate 9 0) = some [0x01, 0x01, 0, 0, 0, 0, 0, 0, 0x80] :=
  ⟨⟨by decide, by decide, by decide, by decide⟩, by decide, by decide, by decide,
    (cpumap_set_clear_test (List.replicate 9 0) 71 8 (by decide) (by decide) (by decide)
      (by decide)).2.2.2⟩

/-! ## Cardinality cache and bitmap sizes -/

theorem to_int_of_small (x : Int) (h0 : 0 ≤ x) (h1 : x < 2147483648) : to_int x = x := by
  unfold to_int; omega

theorem c_div_eight (n : Nat) : c_div (n : Int) 8 = ((n / 8 : Nat) : Int) := by
  unfold c_div
  rw [Int.tdiv_eq_ediv (by omega) (by norm_num)]
  norm_cast

theorem ceil_eighth (m : Nat) : ⌈((m : ℚ) + 1) / 8⌉ = (((m + 8) / 8 : Nat) : Int) := by
  obtain ⟨q, hq⟩ : ∃ q, q = (m + 8) / 8 := ⟨_, rfl⟩
  rw [← hq, Int.ceil_eq_iff]
  have h1 : 8 * q ≤ m + 8 := by omega
  have h2 : m + 1 ≤ 8 * q := by omega
  have h1q : (8 : ℚ) * (q : ℚ) ≤ (m : ℚ) + 8 := by exact_mod_cast h1
  have h2q : (m : ℚ) + 1 ≤ 8 * (q : ℚ) := by exact_mod_cast h2
  constructor
  · rw [Int.cast_natCast, lt_div_iff₀ (by norm_num)]
    linarith
  · rw [Int.cast_natCast, div_le_iff₀ (by norm_num)]
    linarith

theorem max_cpus_fresh (m : Nat) (hm : m + 1 < 2147483648) (physinfo : xc_physinfo_t)
    (a b : Nat) :
    xc_get_max_cpus 0 physinfo ⟨0, ⟨a, m, b⟩⟩ = ⟨(m : Int) + 1, (m : Int) + 1, 1⟩ := by
  simp only [xc_get_max_cpus, xc_physinfo, ne_eq, not_true_eq_false, if_false, if_true]
  rw [Nat.mod_eq_of_lt (by omega), to_int_of_small _ (by omega) (by omega)]
  push_cast
  rfl

theorem max_nodes_fresh (m : Nat) (hm : m + 1 < 2147483648) (physinfo : xc_physinfo_t)
    (a b : Nat) :
    xc_get_max_nodes 0 physinfo ⟨0, ⟨a, b, m⟩⟩ = ⟨(m : Int) + 1, (m : Int) + 1, 1⟩ := by
  simp only [xc_get_max_nodes, xc_physinfo, ne_eq, not_true_eq_false, if_false, if_true]
  rw [Nat.mod_eq_of_lt (by omega), to_int_of_small _ (by omega) (by omega)]
  push_cast
  rfl

theorem size_of_count (m : Nat) (hm : m + 8 < 2147483648) :
    c_div (to_int ((m : Int) + 1 + 7)) 8 = (((m + 8) / 8 : Nat) : Int) := by
  rw [to_int_of_small _ (by omega) (by omega)]
  have : (m : Int) + 1 + 7 = ((m + 8 : Nat) : Int) := by push_cast; ring
  rw [this, c_div_eight]

theorem max_cpus_failed (physinfo : xc_physinfo_t) (r : PhysinfoReply) (h : r.status ≠ 0) :
    xc_get_max_cpus 0 physinfo r = ⟨-1, 0, 1⟩ := by
  simp [xc_get_max_cpus, xc_physinfo, h]

theorem max_nodes_failed (physinfo : xc_physinfo_t) (r : PhysinfoReply) (h : r.status ≠ 0) :
    xc_get_max_nodes 0 physinfo r = ⟨-1, 0, 1⟩ := by
  simp [xc_get_max_nodes, xc_physinfo, h]

theorem max_cpus_calls_cached (physinfo : xc_physinfo_t) (c : Int) (hc : c ≠ 0)
    (rs : List PhysinfoReply) :
    max_cpus_calls physinfo c rs = rs.map (fun _ => (c, 0)) := by
  induction rs with
  | nil => rfl
  | cons r rs ih => simp [max_cpus_calls, xc_get_max_cpus, hc, ih]

theorem max_nodes_calls_cached (physinfo : xc_physinfo_t) (c : Int) (hc : c ≠ 0)
    (rs : List PhysinfoReply) :
    max_nodes_calls physinfo c rs = rs.map (fun _ => (c, 0)) := by
  induction rs with
  | nil => rfl
  | cons r rs ih => simp [max_nodes_calls, xc_get_max_nodes, hc, ih]

/-- C2, as amended. With an empty cache and a successful discovery reporting
max id m, where m + 8 < 2^31 (so that the count m + 1 and the sum m + 1 + 7 are
values of `int`), `xc_get_cpumap_size` returns ceil((m+1)/8) when m is the
reported `max_cpu_id` and `xc_get_nodemap_size` returns ceil((m+1)/8) when m is
the reported `max_node_id`; m in {0, 1, 7, 8, 63, 64} gives {1, 1, 1, 2, 8, 9}
and m = 71 gives 9. -/
theorem bitmap_size_is_ceil (m : Nat) (hm : m + 8 < 2147483648) (physinfo : xc_physinfo_t)
    (a b : Nat) :
    (xc_get_cpumap_size 0 physinfo ⟨0, ⟨a, m, b⟩⟩).ret = ⌈((m : ℚ) + 1) / 8⌉ ∧
    (xc_get_nodemap_size 0 physinfo ⟨0, ⟨a, b, m⟩⟩).ret = ⌈((m : ℚ) + 1) / 8⌉ ∧
    ([0, 1, 7, 8, 63, 64, 71].map
        (fun k => (xc_get_cpumap_size 0 physinfo ⟨0, ⟨a, k, b⟩⟩).ret) = [1, 1, 1, 2, 8, 9, 9]) ∧
    ([0, 1, 7, 8, 63, 64, 71].map
        (fun k => (xc_get_nodemap_size 0 physinfo ⟨0, ⟨a, b, k⟩⟩).ret) = [1, 1, 1, 2, 8, 9, 9]) := by
  have hc : ∀ k : Nat, k + 8 < 2147483648 →
      (xc_get_cpumap_size 0 physinfo ⟨0, ⟨a, k, b⟩⟩).ret = (((k + 8) / 8 : Nat) : Int) := by
    intro k hk
    have hneg : ¬ ((k : Int) + 1 < 0) := by omega
    simp only [xc_get_cpumap_size, max_cpus_fresh k (by omega) physinfo a b, if_neg hneg,
      size_of_count k hk]
  have hn : ∀ k : Nat, k + 8 < 2147483648 →
      (xc_get_nodemap_size 0 physinfo ⟨0, ⟨a, b, k⟩⟩).ret = (((k + 8) / 8 : Nat) : Int) := by
    intro k hk
    have hneg : ¬ ((k : Int) + 1 < 0) := by omega
    simp only [xc_get_nodemap_size, max_nodes_fresh k (by omega) physinfo a b, if_neg hneg,
      size_of_count k hk]
  refine ⟨?_, ?_, ?_, ?_⟩
  · rw [hc m hm, ceil_eighth]
  · rw [hn m hm, ceil_eighth]
  · simp only [List.map]
    rw [hc 0 (by norm_num), hc 1 (by norm_num), hc 7 (by norm_num), hc 8 (by norm_num),
      hc 63 (by norm_num), hc 64 (by norm_num), hc 71 (by norm_num)]
    rfl
  · simp only [List.map]
    rw [hn 0 (by norm_num), hn 1 (by norm_num), hn 7 (by norm_num), hn 8 (by norm_num),
      hn 63 (by norm_num), hn 64 (by norm_num), hn 71 (by norm_num)]
    rfl

/-- C2 at a concrete input: 72 CPUs (max id 71) give a 9-byte map. -/
theorem bitmap_size_is_ceil_witness :
    71 + 8 < 2147483648 ∧
    (xc_get_cpumap_size 0 ⟨0, 0, 0⟩ ⟨0, ⟨72, 71, 0⟩⟩).ret = ⌈(((71 : Nat) : ℚ) + 1) / 8⌉ ∧
    (xc_get_cpumap_size 0 ⟨0, 0, 0⟩ ⟨0, ⟨72, 71, 0⟩⟩).ret = 9 :=
  ⟨by norm_num, (bitmap_size_is_ceil 71 (by norm_num) ⟨0, 0, 0⟩ 72 0).1, by decide⟩

/-- C2 fails as stated: a successful discovery reporting max id 2^32 - 1 makes
`xc_get_cpumap_size` (and `xc_get_nodemap_size`) return 0, and one reporting
2^31 - 1 makes them return -1, where ceil((m+1)/8) is 2^29 and 2^28. -/
theorem bitmap_size_wraps :
    (xc_get_cpumap_size 0 ⟨0, 0, 0⟩ ⟨0, ⟨1, 4294967295, 0⟩⟩).ret = 0 ∧
    (xc_get_nodemap_size 0 ⟨0, 0, 0⟩ ⟨0, ⟨1, 0, 4294967295⟩⟩).ret = 0 ∧
    ⌈(((4294967295 : Nat) : ℚ) + 1) / 8⌉ = 536870912 ∧
    (xc_get_cpumap_size 0 ⟨0, 0, 0⟩ ⟨0, ⟨1, 2147483647, 0⟩⟩).ret = -1 ∧
    (xc_get_nodemap_size 0 ⟨0, 0, 0⟩ ⟨0, ⟨1, 0, 2147483647⟩⟩).ret = -1 ∧
    ⌈(((2147483647 : Nat) : ℚ) + 1) / 8⌉ = 268435456 := by
  refine ⟨by decide, by decide, ?_, by decide, by decide, ?_⟩
  · rw [ceil_eighth]; rfl
  · rw [ceil_eighth]; rfl

/-- C9, as amended. On an empty cache, any number of calls whose query fails
each return -1 and issue one privileged call (the cache stays empty, and
`xc_get_cpumap_size` / `xc_get_nodemap_size` return -1 on such a call); the
first call whose query succeeds, reporting max id m with m + 1 < 2^31, returns
m + 1 after one privileged call; every later call returns the same m + 1 and
issues no privileged call, whatever the privileged side would answer. -/
theorem cardinality_cache_write_once (m : Nat) (hm : m + 1 < 2147483648)
    (physinfo : xc_physinfo_t) (a b : Nat) (fs rs : List PhysinfoReply)
    (hfs : ∀ r ∈ fs, r.status ≠ 0) :
    max_cpus_calls physinfo 0 (fs ++ ⟨0, ⟨a, m, b⟩⟩ :: rs) =
        fs.map (fun _ => (-1, 1)) ++ ((m : Int) + 1, 1) :: rs.map (fun _ => ((m : Int) + 1, 0)) ∧
    max_nodes_calls physinfo 0 (fs ++ ⟨0, ⟨a, b, m⟩⟩ :: rs) =
        fs.map (fun _ => (-1, 1)) ++ ((m : Int) + 1, 1) :: rs.map (fun _ => ((m : Int) + 1, 0)) ∧
    (∀ r ∈ fs, xc_get_max_cpus 0 physinfo r = ⟨-1, 0, 1⟩ ∧
        xc_get_cpumap_size 0 physinfo r = ⟨-1, 0, 1⟩ ∧
        xc_get_max_nodes 0 physinfo r = ⟨-1, 0, 1⟩ ∧
        xc_get_nodemap_size 0 physinfo r = ⟨-1, 0, 1⟩) := by
  have hne : (m : Int) + 1 ≠ 0 := by omega
  refine ⟨?_, ?_, ?_⟩
  · induction fs with
    | nil =>
      simp only [List.nil_append, max_cpus_calls, max_cpus_fresh m hm physinfo a b, List.map_nil,
        max_cpus_calls_cached physinfo _ hne rs]
    | cons f fs ih =>
      have hf : f.status ≠ 0 := hfs f (List.mem_cons_self _ _)
      have ih1 := ih (fun r hr => hfs r (List.mem_cons_of_mem _ hr))
      simp only [List.cons_append, max_cpus_calls, max_cpus_failed physinfo f hf, List.map_cons]
      exact congrArg _ ih1
  · induction fs with
    | nil =>
      simp only [List.nil_append, max_nodes_calls, max_nodes_fresh m hm physinfo a b,
        List.map_nil, max_nodes_calls_cached physinfo _ hne rs]
    | cons f fs ih =>
      have hf : f.status ≠ 0 := hfs f (List.mem_cons_self _ _)
      have ih1 := ih (fun r hr => hfs r (List.mem_cons_of_mem _ hr))
      simp only [List.cons_append, max_nodes_calls, max_nodes_failed physinfo f hf, List.map_cons]
      exact congrArg _ ih1
  · intro r hr
    have hf : r.status ≠ 0 := hfs r hr
    refine ⟨max_cpus_failed physinfo r hf, ?_, max_nodes_failed physinfo r hf, ?_⟩
    · simp [xc_get_cpumap_size, max_cpus_failed physinfo r hf]
    · simp [xc_get_nodemap_size, max_nodes_failed physinfo r hf]

/-- C9 at a concrete input: two failed queries, a success reporting max id
71, then two more calls. -/
theorem cardinality_cache_write_once_witness :
    (∀ r ∈ [(⟨-1, ⟨0, 0, 0⟩⟩ : PhysinfoReply), ⟨-1, ⟨0, 0, 0⟩⟩], r.status ≠ 0) ∧
    max_cpus_calls ⟨0, 0, 0⟩ 0
        [⟨-1, ⟨0, 0, 0⟩⟩, ⟨-1, ⟨0, 0, 0⟩⟩, ⟨0, ⟨72, 71, 1⟩⟩, ⟨0, ⟨8, 7, 0⟩⟩, ⟨-1, ⟨0, 0, 0⟩⟩] =
      [(-1, 1), (-1, 1), (72, 1), (72, 0), (72, 0)] :=
  ⟨by decide,
   (cardinality_cache_write_once 71 (by norm_num) ⟨0, 0, 0⟩ 72 1
      [⟨-1, ⟨0, 0, 0⟩⟩, ⟨-1, ⟨0, 0, 0⟩⟩] [⟨0, ⟨8, 7, 0⟩⟩, ⟨-1, ⟨0, 0, 0⟩⟩] (by decide)).1⟩

/-- C9 fails as stated: a successful query reporting max id 2^32 - 1 returns 0
(not m + 1) and leaves the cache empty, so that the next call queries again and
returns another value; a successful query reporting max id 2^31 - 1 returns
-2^31, which is not m + 1. -/
theorem cardinality_cache_wraps :
    max_cpus_calls ⟨0, 0, 0⟩ 0 [⟨0, ⟨1, 4294967295, 0⟩⟩, ⟨0, ⟨4, 3, 0⟩⟩] = [(0, 1), (4, 1)] ∧
    max_nodes_calls ⟨0, 0, 0⟩ 0 [⟨0, ⟨1, 0, 4294967295⟩⟩, ⟨0, ⟨4, 0, 3⟩⟩] = [(0, 1), (4, 1)] ∧
    max_cpus_calls ⟨0, 0, 0⟩ 0 [⟨0, ⟨1, 2147483647, 0⟩⟩, ⟨0, ⟨4, 3, 0⟩⟩] =
      [(-2147483648, 1), (-2147483648, 0)] := by
  refine ⟨by decide, by decide, by decide⟩

/-! ## The chunk loop of `xc_pcitopoinfo` -/

theorem loop_done (do_sysctl : Nat → xen_sysctl_pcitopoinfo → Int × Nat) (num_devs : Nat)
    (fuel : Nat) (ret : Int) (processed : Nat) (calls : List PciCall)
    (h : ¬ processed < num_devs) :
    pcitopoinfo_loop do_sysctl num_devs fuel ret processed calls =
      ⟨true, ret, processed, calls⟩ := by
  cases fuel <;> simp [pcitopoinfo_loop, h]

theorem loop_out_of_fuel (do_sysctl : Nat → xen_sysctl_pcitopoinfo → Int × Nat)
    (num_devs : Nat) (ret : Int) (processed : Nat) (calls : List PciCall)
    (h : processed < num_devs) :
    pcitopoinfo_loop do_sysctl num_devs 0 ret processed calls =
      ⟨false, ret, processed, calls⟩ := by
  simp [pcitopoinfo_loop, h]

theorem loop_continue (do_sysctl : Nat → xen_sysctl_pcitopoinfo → Int × Nat) (num_devs : Nat)
    (fuel : Nat) (ret : Int) (processed : Nat) (calls : List PciCall)
    (h : processed < num_devs)
    (hst : (do_sysctl calls.length ⟨num_devs - processed, processed, processed⟩).1 = 0) :
    pcitopoinfo_loop do_sysctl num_devs (fuel + 1) ret processed calls =
      pcitopoinfo_loop do_sysctl num_devs fuel 0
        ((processed + (do_sysctl calls.length
          ⟨num_devs - processed, processed, processed⟩).2) % 4294967296)
        (calls ++ [⟨⟨num_devs - processed, processed, processed⟩, 0,
          (do_sysctl calls.length ⟨num_devs - processed, processed, processed⟩).2⟩]) := by
  simp only [pcitopoinfo_loop, if_pos h, hst, ne_eq, not_true_eq_false, if_false]

theorem loop_break (do_sysctl : Nat → xen_sysctl_pcitopoinfo → Int × Nat) (num_devs : Nat)
    (fuel : Nat) (ret : Int) (processed : Nat) (calls : List PciCall)
    (h : processed < num_devs)
    (hst : (do_sysctl calls.length ⟨num_devs - processed, processed, processed⟩).1 ≠ 0) :
    pcitopoinfo_loop do_sysctl num_devs (fuel + 1) ret processed calls =
      ⟨true, (do_sysctl calls.length ⟨num_devs - processed, processed, processed⟩).1, processed,
        calls ++ [⟨⟨num_devs - processed, processed, processed⟩,
          (do_sysctl calls.length ⟨num_devs - processed, processed, processed⟩).1,
          (do_sysctl calls.length ⟨num_devs - processed, processed, processed⟩).2⟩]⟩ := by
  simp only [pcitopoinfo_loop, if_pos h, ne_eq, hst, not_false_eq_true, if_true]

/-- The loop only appends to the record of invocations. -/
theorem loop_calls_extend (do_sysctl : Nat → xen_sysctl_pcitopoinfo → Int × Nat)
    (num_devs : Nat) :
    ∀ (fuel : Nat) (ret : Int) (processed : Nat) (calls : List PciCall),
      ∃ t, (pcitopoinfo_loop do_sysctl num_devs fuel ret processed calls).calls = calls ++ t := by
  intro fuel
  induction fuel with
  | zero => intro ret processed calls; exact ⟨[], by simp [pcitopoinfo_loop]⟩
  | succ fuel ih =>
    intro ret processed calls
    by_cases hlt : processed < num_devs
    · by_cases hst : (do_sysctl calls.length ⟨num_devs - processed, processed, processed⟩).1 = 0
      · rw [loop_continue do_sysctl num_devs fuel ret processed calls hlt hst]
        obtain ⟨t, ht⟩ := ih 0
          ((processed + (do_sysctl calls.length
            ⟨num_devs - processed, processed, processed⟩).2) % 4294967296)
          (calls ++ [⟨⟨num_devs - processed, processed, processed⟩, 0,
            (do_sysctl calls.length ⟨num_devs - processed, processed, processed⟩).2⟩])
        rw [ht, List.append_assoc]
        exact ⟨_, rfl⟩
      · rw [loop_break do_sysctl num_devs fuel ret processed calls hlt hst]
        exact ⟨_, rfl⟩
    · rw [loop_done do_sysctl num_devs _ ret processed calls hlt]
      exact ⟨[], by simp⟩

/-- Invariant of the loop on a run in which no status-0 reply reports more
than was requested. -/
theorem loop_bounded (do_sysctl : Nat → xen_sysctl_pcitopoinfo → Int × Nat) (num_devs : Nat) :
    ∀ (fuel : Nat) (processed : Nat) (calls : List PciCall),
      processed ≤ num_devs → (∀ c ∈ calls, c.status = 0) →
      (∀ c ∈ (pcitopoinfo_loop do_sysctl num_devs fuel 0 processed calls).calls,
        c.status = 0 → c.reported ≤ c.req.num_devs) →
      (pcitopoinfo_loop do_sysctl num_devs fuel 0 processed calls).processed ≤ num_devs ∧
      ((pcitopoinfo_loop do_sysctl num_devs fuel 0 processed calls).finished = true →
        ((pcitopoinfo_loop do_sysctl num_devs fuel 0 processed calls).ret = 0 ∧
          (pcitopoinfo_loop do_sysctl num_devs fuel 0 processed calls).processed = num_devs ∧
          (statuses (pcitopoinfo_loop do_sysctl num_devs fuel 0 processed calls)).find?
            (fun s => s ≠ 0) = none) ∨
        ((pcitopoinfo_loop do_sysctl num_devs fuel 0 processed calls).ret ≠ 0 ∧
          (pcitopoinfo_loop do_sysctl num_devs fuel 0 processed calls).processed < num_devs ∧
          (statuses (pcitopoinfo_loop do_sysctl num_devs fuel 0 processed calls)).find?
            (fun s => s ≠ 0) =
              some (pcitopoinfo_loop do_sysctl num_devs fuel 0 processed calls).ret)) := by
  intro fuel
  induction fuel with
  | zero =>
    intro processed calls hp hcalls _
    by_cases hlt : processed < num_devs
    · rw [loop_out_of_fuel do_sysctl num_devs 0 processed calls hlt]
      exact ⟨hp, fun h => by cases h⟩
    · rw [loop_done do_sysctl num_devs 0 0 processed calls hlt]
      refine ⟨hp, fun _ => Or.inl ⟨rfl, by simp only; omega, ?_⟩⟩
      simp [statuses, List.find?_eq_none]; exact hcalls
  | succ fuel ih =>
    intro processed calls hp hcalls hcap
    by_cases hlt : processed < num_devs
    · by_cases hst : (do_sysctl calls.length ⟨num_devs - processed, processed, processed⟩).1 = 0
      · rw [loop_continue do_sysctl num_devs fuel 0 processed calls hlt hst] at hcap ⊢
        obtain ⟨t, ht⟩ := loop_calls_extend do_sysctl num_devs fuel 0
          ((processed + (do_sysctl calls.length
            ⟨num_devs - processed, processed, processed⟩).2) % 4294967296)
          (calls ++ [⟨⟨num_devs - processed, processed, processed⟩, 0,
            (do_sysctl calls.length ⟨num_devs - processed, processed, processed⟩).2⟩])
        have hrep := hcap ⟨⟨num_devs - processed, processed, processed⟩, 0,
            (do_sysctl calls.length ⟨num_devs - processed, processed, processed⟩).2⟩
          (by rw [ht]; simp) rfl
        simp only at hrep
        have hnew : (processed +
            (do_sysctl calls.length ⟨num_devs - processed, processed, processed⟩).2) % 4294967296
              ≤ num_devs :=
          le_trans (Nat.mod_le _ _) (by omega)
        have hcalls1 : ∀ c ∈ calls ++ [(⟨⟨num_devs - processed, processed, processed⟩, 0,
            (do_sysctl calls.length ⟨num_devs - processed, processed, processed⟩).2⟩ : PciCall)],
            c.status = 0 := by
          intro c hc
          rcases List.mem_append.1 hc with h | h
          · exact hcalls c h
          · rw [List.mem_singleton] at h; rw [h]
        exact ih _ _ hnew hcalls1 hcap
      · rw [loop_break do_sysctl num_devs fuel 0 processed calls hlt hst]
        refine ⟨hp, fun _ => Or.inr ⟨hst, hlt, ?_⟩⟩
        simp only [statuses]
        rw [List.map_append, List.find?_append]
        have : List.find? (fun s => decide (s ≠ 0)) (List.map (fun c => c.status) calls) = none := by
          simp [List.find?_eq_none]; exact hcalls
        rw [this]
        simp [hst]
    · rw [loop_done do_sysctl num_devs _ 0 processed calls hlt]
      refine ⟨hp, fun _ => Or.inl ⟨rfl, by simp only; omega, ?_⟩⟩
      simp [statuses, List.find?_eq_none]; exact hcalls

/-- C3, as amended. For every num_devs, every privileged side and every
number of iterations run so far: if no status-0 reply received so far reported
more devices than its request asked for, then `processed` does not exceed
num_devs; and if moreover the loop has been left, either the status is 0,
processed == num_devs and no invocation returned a non-zero status, or the
status is the first non-zero status encountered and processed < num_devs. -/
theorem chunk_loop_outcome (do_sysctl : Nat → xen_sysctl_pcitopoinfo → Int × Nat)
    (num_devs fuel : Nat)
    (hcap : ∀ c ∈ (pcitopoinfo_loop do_sysctl num_devs fuel 0 0 []).calls,
      c.status = 0 → c.reported ≤ c.req.num_devs) :
    (pcitopoinfo_loop do_sysctl num_devs fuel 0 0 []).processed ≤ num_devs ∧
    ((pcitopoinfo_loop do_sysctl num_devs fuel 0 0 []).finished = true →
      ((pcitopoinfo_loop do_sysctl num_devs fuel 0 0 []).ret = 0 ∧
        (pcitopoinfo_loop do_sysctl num_devs fuel 0 0 []).processed = num_devs ∧
        (statuses (pcitopoinfo_loop do_sysctl num_devs fuel 0 0 [])).find? (fun s => s ≠ 0)
          = none) ∨
      ((pcitopoinfo_loop do_sysctl num_devs fuel 0 0 []).ret ≠ 0 ∧
        (pcitopoinfo_loop do_sysctl num_devs fuel 0 0 []).processed < num_devs ∧
        (statuses (pcitopoinfo_loop do_sysctl num_devs fuel 0 0 [])).find? (fun s => s ≠ 0)
          = some (pcitopoinfo_loop do_sysctl num_devs fuel 0 0 []).ret)) :=
  loop_bounded do_sysctl num_devs fuel 0 [] (Nat.zero_le _) (by simp) hcap

/-- C3 at a concrete input: 7 devices, the replies (0, 2), (0, 2), (-1, 3):
the third call fails with status -1 after 4 devices. -/
theorem chunk_loop_outcome_witness :
    (∀ c ∈ (pcitopoinfo_loop failing_third 7 9 0 0 []).calls,
      c.status = 0 → c.reported ≤ c.req.num_devs) ∧
    pcitopoinfo_loop failing_third 7 9 0 0 [] =
      ⟨true, -1, 4, [⟨⟨7, 0, 0⟩, 0, 2⟩, ⟨⟨5, 2, 2⟩, 0, 2⟩, ⟨⟨3, 4, 4⟩, -1, 3⟩]⟩ ∧
    (statuses (pcitopoinfo_loop failing_third 7 9 0 0 [])).find? (fun s => s ≠ 0) = some (-1) ∧
    (pcitopoinfo_loop failing_third 7 9 0 0 []).processed ≤ 7 :=
  ⟨by decide, by decide, by decide, (chunk_loop_outcome failing_third 7 9 (by decide)).1⟩

/-- C3 fails as stated: asked for 1 device, a privileged side that returns
status 0 and reports 2 devices makes the loop end with status 0 and
processed = 2, which exceeds num_devs = 1. -/
theorem chunk_loop_overshoots :
    pcitopoinfo_loop (reporting 2) 1 1 0 0 [] = ⟨true, 0, 2, [⟨⟨1, 0, 0⟩, 0, 2⟩]⟩ ∧
    (pcitopoinfo_loop (reporting 2) 1 1 0 0 []).finished = true ∧
    (pcitopoinfo_loop (reporting 2) 1 1 0 0 []).ret = 0 ∧
    (pcitopoinfo_loop (reporting 2) 1 1 0 0 []).processed ≠ 1 ∧
    1 < (pcitopoinfo_loop (reporting 2) 1 1 0 0 []).processed := by
  decide

/-! ## Termination of the chunk loop -/

/-- On a run in which every status-0 reply reports at least one and at most
the requested number of devices, the loop is left within
`num_devs - processed` iterations. -/
theorem loop_finishes (do_sysctl : Nat → xen_sysctl_pcitopoinfo → Int × Nat) (num_devs : Nat)
    (hn : num_devs < 4294967296) :
    ∀ (fuel : Nat) (ret : Int) (processed : Nat) (calls : List PciCall),
      processed ≤ num_devs → num_devs ≤ processed + fuel →
      (∀ c ∈ (pcitopoinfo_loop do_sysctl num_devs fuel ret processed calls).calls,
        c.status = 0 → 0 < c.reported ∧ c.reported ≤ c.req.num_devs) →
      (pcitopoinfo_loop do_sysctl num_devs fuel ret processed calls).finished = true ∧
      (pcitopoinfo_loop do_sysctl num_devs fuel ret processed calls).calls.length
        ≤ calls.length + (num_devs - processed) := by
  intro fuel
  induction fuel with
  | zero =>
    intro ret processed calls hp hf _
    rw [loop_done do_sysctl num_devs 0 ret processed calls (by omega)]
    exact ⟨rfl, by simp⟩
  | succ fuel ih =>
    intro ret processed calls hp hf hprog
    by_cases hlt : processed < num_devs
    · by_cases hst : (do_sysctl calls.length ⟨num_devs - processed, processed, processed⟩).1 = 0
      · rw [loop_continue do_sysctl num_devs fuel ret processed calls hlt hst] at hprog ⊢
        obtain ⟨t, ht⟩ := loop_calls_extend do_sysctl num_devs fuel 0
          ((processed + (do_sysctl calls.length
            ⟨num_devs - processed, processed, processed⟩).2) % 4294967296)
          (calls ++ [⟨⟨num_devs - processed, processed, processed⟩, 0,
            (do_sysctl calls.length ⟨num_devs - processed, processed, processed⟩).2⟩])
        have hrep := hprog ⟨⟨num_devs - processed, processed, processed⟩, 0,
            (do_sysctl calls.length ⟨num_devs - processed, processed, processed⟩).2⟩
          (by rw [ht]; simp) rfl
        simp only at hrep
        have hmod : (processed +
            (do_sysctl calls.length ⟨num_devs - processed, processed, processed⟩).2)
              % 4294967296 = processed +
            (do_sysctl calls.length ⟨num_devs - processed, processed, processed⟩).2 :=
          Nat.mod_eq_of_lt (by omega)
        rw [hmod] at hprog ⊢
        have := ih 0 _ _ (by omega) (by omega) hprog
        refine ⟨this.1, le_trans this.2 ?_⟩
        simp only [List.length_append, List.length_singleton]
        omega
      · rw [loop_break do_sysctl num_devs fuel ret processed calls hlt hst]
        refine ⟨rfl, ?_⟩
        simp only [List.length_append, List.length_singleton]
        omega
    · rw [loop_done do_sysctl num_devs _ ret processed calls hlt]
      exact ⟨rfl, by simp⟩

/-- In any run, an invocation that follows a status-0 reply reporting zero
devices carries the same envelope as the invocation before it. -/
theorem loop_repeats (do_sysctl : Nat → xen_sysctl_pcitopoinfo → Int × Nat) (num_devs : Nat)
    (hn : num_devs < 4294967296) :
    ∀ (fuel : Nat) (ret : Int) (processed : Nat) (calls : List PciCall),
      (∀ c, calls.getLast? = some c → c.status = 0 → c.reported = 0 →
        c.req = ⟨num_devs - processed, processed, processed⟩) →
      (∀ i c d, calls[i]? = some c → calls[i + 1]? = some d →
        c.status = 0 → c.reported = 0 → d.req = c.req) →
      ∀ i c d,
        (pcitopoinfo_loop do_sysctl num_devs fuel ret processed calls).calls[i]? = some c →
        (pcitopoinfo_loop do_sysctl num_devs fuel ret processed calls).calls[i + 1]? = some d →
        c.status = 0 → c.reported = 0 → d.req = c.req := by
  have hpairs : ∀ (processed : Nat) (calls : List PciCall) (new : PciCall),
      new.req = ⟨num_devs - processed, processed, processed⟩ →
      (∀ c, calls.getLast? = some c → c.status = 0 → c.reported = 0 →
        c.req = ⟨num_devs - processed, processed, processed⟩) →
      (∀ i c d, calls[i]? = some c → calls[i + 1]? = some d →
        c.status = 0 → c.reported = 0 → d.req = c.req) →
      ∀ i c d, (calls ++ [new])[i]? = some c → (calls ++ [new])[i + 1]? = some d →
        c.status = 0 → c.reported = 0 → d.req = c.req := by
    intro processed calls new hnew hlast hold i c d hc hd hs hr
    rcases Nat.lt_trichotomy (i + 1) calls.length with h | h | h
    · rw [List.getElem?_append_left (by omega)] at hc
      rw [List.getElem?_append_left h] at hd
      exact hold i c d hc hd hs hr
    · rw [List.getElem?_append_left (by omega)] at hc
      rw [h, List.getElem?_concat_length] at hd
      have hcl : calls.getLast? = some c := by
        rw [List.getLast?_eq_getElem?, ← h, Nat.add_sub_cancel]
        exact hc
      rw [hlast c hcl hs hr, ← Option.some.inj hd, hnew]
    · rw [List.getElem?_eq_none (by simp; omega)] at hd
      cases hd
  intro fuel
  induction fuel with
  | zero =>
    intro ret processed calls hlast hold
    by_cases hlt : processed < num_devs
    · rw [loop_out_of_fuel do_sysctl num_devs ret processed calls hlt]
      exact hold
    · rw [loop_done do_sysctl num_devs 0 ret processed calls hlt]
      exact hold
  | succ fuel ih =>
    intro ret processed calls hlast hold
    by_cases hlt : processed < num_devs
    · by_cases hst : (do_sysctl calls.length ⟨num_devs - processed, processed, processed⟩).1 = 0
      · rw [loop_continue do_sysctl num_devs fuel ret processed calls hlt hst]
        apply ih
        · intro c hc _ hr
          rw [List.getLast?_concat] at hc
          have hc2 := Option.some.inj hc
          rw [← hc2] at hr ⊢
          simp only at hr ⊢
          rw [hr, Nat.add_zero, Nat.mod_eq_of_lt (by omega)]
        · exact hpairs processed calls _ rfl hlast hold
      · rw [loop_break do_sysctl num_devs fuel ret processed calls hlt hst]
        exact hpairs processed calls _ rfl hlast hold
    · rw [loop_done do_sysctl num_devs _ ret processed calls hlt]
      exact hold

/-- From the start of the loop: an invocation that follows a status-0 reply
reporting zero devices carries the same envelope as the one before it. -/
theorem zero_progress_repeats_request
    (do_sysctl : Nat → xen_sysctl_pcitopoinfo → Int × Nat) (num_devs : Nat)
    (hn : num_devs < 4294967296) (fuel i : Nat) (c d : PciCall)
    (hc : (pcitopoinfo_loop do_sysctl num_devs fuel 0 0 []).calls[i]? = some c)
    (hd : (pcitopoinfo_loop do_sysctl num_devs fuel 0 0 []).calls[i + 1]? = some d)
    (hs : c.status = 0) (hr : c.reported = 0) : d.req = c.req :=
  loop_repeats do_sysctl num_devs hn fuel 0 0 [] (by simp) (by simp) i c d hc hd hs hr

/-- Under a privileged side that reports status 0 and zero devices, the loop
on one device is never left. -/
theorem loop_stuck : ∀ (fuel : Nat) (ret : Int) (calls : List PciCall),
    (pcitopoinfo_loop (reporting 0) 1 fuel ret 0 calls).finished = false ∧
    (pcitopoinfo_loop (reporting 0) 1 fuel ret 0 calls).calls.length = calls.length + fuel := by
  intro fuel
  induction fuel with
  | zero =>
    intro ret calls
    rw [loop_out_of_fuel (reporting 0) 1 ret 0 calls (by norm_num)]
    exact ⟨rfl, rfl⟩
  | succ fuel ih =>
    intro ret calls
    rw [loop_continue (reporting 0) 1 fuel ret 0 calls (by norm_num) rfl]
    have := ih 0 (calls ++ [⟨⟨1 - 0, 0, 0⟩, 0, ((reporting 0) calls.length ⟨1 - 0, 0, 0⟩).2⟩])
    refine ⟨this.1, this.2.trans ?_⟩
    rw [List.length_append, List.length_singleton]
    omega

/-- C4, as amended. The loop is left within num_devs invocations on every run
in which each status-0 reply reports at least one and at most the requested
number of devices: if a run of at least num_devs iterations has seen only such
replies, the loop has ended, after at most num_devs invocations. -/
theorem chunk_loop_terminates (do_sysctl : Nat → xen_sysctl_pcitopoinfo → Int × Nat)
    (num_devs fuel : Nat) (hn : num_devs < 4294967296) (hfuel : num_devs ≤ fuel)
    (hprog : ∀ c ∈ (pcitopoinfo_loop do_sysctl num_devs fuel 0 0 []).calls,
      c.status = 0 → 0 < c.reported ∧ c.reported ≤ c.req.num_devs) :
    (pcitopoinfo_loop do_sysctl num_devs fuel 0 0 []).finished = true ∧
    (pcitopoinfo_loop do_sysctl num_devs fuel 0 0 []).calls.length ≤ num_devs := by
  have := loop_finishes do_sysctl num_devs hn fuel 0 0 [] (Nat.zero_le _) (by omega) hprog
  simpa using this

/-- C4 at a concrete input: 260 devices, at most 128 handled per call. -/
theorem chunk_loop_terminates_witness :
    (260 < 4294967296 ∧ 260 ≤ 260) ∧
    (∀ c ∈ (pcitopoinfo_loop (capped 128) 260 260 0 0 []).calls,
      c.status = 0 → 0 < c.reported ∧ c.reported ≤ c.req.num_devs) ∧
    (pcitopoinfo_loop (capped 128) 260 260 0 0 []).finished = true ∧
    (pcitopoinfo_loop (capped 128) 260 260 0 0 []).calls.length ≤ 260 :=
  ⟨⟨by norm_num, le_refl _⟩, by decide,
    chunk_loop_terminates (capped 128) 260 260 (by norm_num) (le_refl _) (by decide)⟩

/-- C4 fails as stated: asked for 1 device, a privileged side that always
returns status 0 and reports zero devices is asked the same request again and
again; the loop is never left and the function never returns, whatever the
number of iterations allowed. -/
theorem zero_progress_never_returns :
    (¬ ∃ fuel, (pcitopoinfo_loop (reporting 0) 1 fuel 0 0 []).finished = true) ∧
    (¬ ∃ fuel out, xc_pcitopoinfo ⟨fun _ => 0, fun _ => true⟩ (reporting 0) fuel 1 = some out) ∧
    pcitopoinfo_loop (reporting 0) 1 3 0 0 [] =
      ⟨false, 0, 0, [⟨⟨1, 0, 0⟩, 0, 0⟩, ⟨⟨1, 0, 0⟩, 0, 0⟩, ⟨⟨1, 0, 0⟩, 0, 0⟩]⟩ := by
  refine ⟨?_, ?_, by decide⟩
  · rintro ⟨fuel, h⟩
    rw [(loop_stuck fuel 0 []).1] at h
    cases h
  · rintro ⟨fuel, out, h⟩
    simp [xc_pcitopoinfo, xc_hypercall_bounce_pre, (loop_stuck fuel 0 []).1] at h

/-! ## Chunking against a capped privileged side -/

theorem lt_chunks_iff (n c k : Nat) (hc : 0 < c) : k < (n + c - 1) / c ↔ k * c < n := by
  rw [Nat.lt_iff_add_one_le, Nat.le_div_iff_mul_le hc, Nat.add_mul]
  omega

theorem chunks_eq_ceil (n c : Nat) (hc : 0 < c) : (n + c - 1) / c = ⌈(n : ℚ) / (c : ℚ)⌉₊ := by
  have hcq : (0 : ℚ) < (c : ℚ) := by exact_mod_cast hc
  apply le_antisymm
  · apply Nat.le_of_lt_succ
    rw [Nat.div_lt_iff_lt_mul hc]
    have h1 : (n : ℚ) / (c : ℚ) ≤ (⌈(n : ℚ) / (c : ℚ)⌉₊ : ℚ) := Nat.le_ceil _
    rw [div_le_iff₀ hcq] at h1
    have h2 : n ≤ ⌈(n : ℚ) / (c : ℚ)⌉₊ * c := by exact_mod_cast h1
    rw [Nat.succ_mul]
    omega
  · rw [Nat.ceil_le, div_le_iff₀ hcq]
    have h3 : n ≤ (n + c - 1) / c * c := by
      by_contra hlt
      have := (lt_chunks_iff n c ((n + c - 1) / c) hc).2 (by omega)
      omega
    exact_mod_cast h3

/-- The request and reply of the k-th invocation against `capped c`. -/
theorem loop_capped (n c : Nat) (hn : n < 4294967296) (hc : 0 < c) :
    ∀ (fuel k : Nat) (calls : List PciCall),
      k ≤ (n + c - 1) / c → (n + c - 1) / c ≤ k + fuel →
      pcitopoinfo_loop (capped c) n fuel 0 (min (k * c) n) calls =
        ⟨true, 0, n, calls ++ (List.range' k ((n + c - 1) / c - k)).map
          (fun j => ⟨⟨n - j * c, j * c, j * c⟩, 0, min (n - j * c) c⟩)⟩ := by
  intro fuel
  induction fuel with
  | zero =>
    intro k calls hk hf
    have hkD : k = (n + c - 1) / c := by omega
    have hge : ¬ k * c < n := fun h => by
      have := (lt_chunks_iff n c k hc).2 h
      omega
    have hmin : min (k * c) n = n := by omega
    simp [pcitopoinfo_loop, hmin, ← hkD]
  | succ fuel ih =>
    intro k calls hk hf
    by_cases hlt : k * c < n
    · have hkD : k < (n + c - 1) / c := (lt_chunks_iff n c k hc).2 hlt
      have hmin : min (k * c) n = k * c := by omega
      have hnext : (k * c + min (n - k * c) c) % 4294967296 = min ((k + 1) * c) n := by
        rw [Nat.mod_eq_of_lt (by omega), Nat.add_mul]
        omega
      have hD : (n + c - 1) / c - k = ((n + c - 1) / c - (k + 1)) + 1 := by omega
      have := ih (k + 1) (calls ++ [⟨⟨n - k * c, k * c, k * c⟩, 0, min (n - k * c) c⟩])
        (by omega) (by omega)
      simp only [pcitopoinfo_loop, hmin, if_pos hlt, capped, ne_eq, not_true_eq_false, if_false,
        hnext]
      simp only [capped] at this
      rw [this, hD, List.range'_succ, List.map_cons, List.append_assoc]
      rfl
    · have hkD : k = (n + c - 1) / c := by
        have := (lt_chunks_iff n c k hc).not.2 hlt
        omega
      have hmin : min (k * c) n = n := by omega
      simp [pcitopoinfo_loop, hmin, ← hkD]

theorem invocations_invoked_each (calls : List PciCall) (s : Staging) :
    invocations (invoked_each calls s).log = invocations s.log + calls.length := by
  simp only [invocations, invoked_each, List.filter_append, List.length_append]
  congr 1
  induction calls with
  | nil => rfl
  | cons c cs ih => simp [List.filter_cons, ih]

theorem invocations_post (b : Buf) (s : Staging) :
    invocations (xc_hypercall_bounce_post b s).log = invocations s.log := by
  unfold xc_hypercall_bounce_post
  split
  · simp [invocations, List.filter_append]
  · rfl

theorem loop_capped_start (n c : Nat) (hn : n < 4294967296) (hc : 0 < c) (fuel : Nat)
    (hfuel : (n + c - 1) / c ≤ fuel) :
    pcitopoinfo_loop (capped c) n fuel 0 0 [] =
      ⟨true, 0, n, (List.range ((n + c - 1) / c)).map
        (fun k => ⟨⟨n - k * c, k * c, k * c⟩, 0, min (n - k * c) c⟩)⟩ := by
  have h := loop_capped n c hn hc fuel 0 [] (Nat.zero_le _) (by omega)
  rw [Nat.zero_mul, Nat.zero_min, List.nil_append, Nat.sub_zero, ← List.range_eq_range'] at h
  exact h

/-- C10. For every num_devs n (an `unsigned` value) and every per-call cap
c > 0, against the privileged side that always returns status 0 and reports
min(requested, c) devices: the chunk loop of `xc_pcitopoinfo` is left with
status 0 and processed = n after exactly ceil(n/c) invocations; the k-th
invocation requests n - k*c devices at offset k*c and reports min(n - k*c, c)
of them, so that `processed` grows strictly with every call and ends equal to
n; and `xc_pcitopoinfo`, once its two buffers are staged, returns 0 after
exactly these invocations. -/
theorem capped_chunking (n c : Nat) (hn : n < 4294967296) (hc : 0 < c)
    (fuel : Nat) (hfuel : (n + c - 1) / c ≤ fuel) :
    (n + c - 1) / c = ⌈(n : ℚ) / (c : ℚ)⌉₊ ∧
    pcitopoinfo_loop (capped c) n fuel 0 0 [] =
      ⟨true, 0, n, (List.range ((n + c - 1) / c)).map
        (fun k => ⟨⟨n - k * c, k * c, k * c⟩, 0, min (n - k * c) c⟩)⟩ ∧
    (∀ o : Oracle, o.bounce_pre Buf.devs = 0 → o.bounce_pre Buf.nodes = 0 →
      ∃ out, xc_pcitopoinfo o (capped c) fuel n = some out ∧ out.ret = 0 ∧
        out.out = pcitopoinfo_loop (capped c) n fuel 0 0 [] ∧
        out.out.calls.length = (n + c - 1) / c ∧
        invocations out.st.log = (n + c - 1) / c) ∧
    (∀ k, k < (n + c - 1) / c →
      k * c < k * c + min (n - k * c) c ∧ k * c + min (n - k * c) c ≤ n) := by
  have hl := loop_capped_start n c hn hc fuel hfuel
  refine ⟨chunks_eq_ceil n c hc, hl, ?_, ?_⟩
  · intro o hdevs hnodes
    refine ⟨⟨0, pcitopoinfo_loop (capped c) n fuel 0 0 [],
      xc_hypercall_bounce_post Buf.nodes (xc_hypercall_bounce_post Buf.devs
        (invoked_each (pcitopoinfo_loop (capped c) n fuel 0 0 []).calls
          ⟨[Buf.nodes, Buf.devs], [Event.alloc Buf.devs, Event.alloc Buf.nodes]⟩))⟩,
      ?_, rfl, rfl, ?_, ?_⟩
    · simp [xc_pcitopoinfo, xc_hypercall_bounce_pre, hdevs, hnodes, Staging.init, hl]
    · simp only [hl, List.length_map, List.length_range]
    · simp only [invocations_post, invocations_invoked_each, hl, List.length_map,
        List.length_range]
      simp [invocations]
  · intro k hk
    have := (lt_chunks_iff n c k hc).1 hk
    omega

/-- C10 at a concrete input: 260 devices, cap 128, three invocations that
process 128, 128 and 4 devices. -/
theorem capped_chunking_witness :
    (260 < 4294967296 ∧ 0 < 128 ∧ (260 + 128 - 1) / 128 ≤ 3) ∧
    pcitopoinfo_loop (capped 128) 260 3 0 0 [] =
      ⟨true, 0, 260, (List.range ((260 + 128 - 1) / 128)).map
        (fun k => ⟨⟨260 - k * 128, k * 128, k * 128⟩, 0, min (260 - k * 128) 128⟩)⟩ ∧
    pcitopoinfo_loop (capped 128) 260 3 0 0 [] =
      ⟨true, 0, 260, [⟨⟨260, 0, 0⟩, 0, 128⟩, ⟨⟨132, 128, 128⟩, 0, 128⟩, ⟨⟨4, 256, 256⟩, 0, 4⟩]⟩ ∧
    (xc_pcitopoinfo ⟨fun _ => 0, fun _ => true⟩ (capped 128) 3 260).map (fun r => r.ret)
      = some 0 :=
  ⟨⟨by norm_num, by norm_num, by norm_num⟩,
   (capped_chunking 260 128 (by norm_num) (by norm_num) 3 (by norm_num)).2.1,
   by decide, by decide⟩

/-! ## Staging: the ghost state of each function -/

theorem readconsolering_st (o : Oracle)
    (hv : xen_sysctl_readconsole → Int × xen_sysctl_readconsole)
    (sysctl : xen_sysctl_readconsole) (v : ConsoleVars) (clear incremental : Int) :
    (xc_readconsolering o hv sysctl v clear incremental).st =
      if o.bounce_pre Buf.buffer = 0 then
        ⟨[], [Event.alloc Buf.buffer, Event.invoke Op.XEN_SYSCTL_readconsole,
          Event.release Buf.buffer]⟩
      else ⟨[], []⟩ := by
  by_cases h : o.bounce_pre Buf.buffer = 0 <;>
    simp [xc_readconsolering, xc_hypercall_bounce_pre, xc_hypercall_bounce_post, invoked,
      Staging.init, h]

theorem send_debug_keys_st (o : Oracle) (hv : Int → Int) (len : Int) :
    (xc_send_debug_keys o hv len).st =
      if o.bounce_pre Buf.keys = 0 then
        ⟨[], [Event.alloc Buf.keys, Event.invoke Op.XEN_SYSCTL_debug_keys,
          Event.release Buf.keys]⟩
      else ⟨[], []⟩ := by
  by_cases h : o.bounce_pre Buf.keys = 0 <;>
    simp [xc_send_debug_keys, xc_hypercall_bounce_pre, xc_hypercall_bounce_post, invoked,
      Staging.init, h]

theorem cputopoinfo_st (o : Oracle) (hv : Nat → Int × Nat) (max_cpus : Nat) :
    (xc_cputopoinfo o hv max_cpus).st =
      if o.bounce_pre Buf.cputopo = 0 then
        ⟨[], [Event.alloc Buf.cputopo, Event.invoke Op.XEN_SYSCTL_cputopoinfo,
          Event.release Buf.cputopo]⟩
      else ⟨[], []⟩ := by
  by_cases h : o.bounce_pre Buf.cputopo = 0 <;> by_cases h2 : (hv max_cpus).1 = 0 <;>
    simp [xc_cputopoinfo, xc_hypercall_bounce_pre, xc_hypercall_bounce_post, invoked,
      Staging.init, h, h2]

theorem numainfo_st (o : Oracle) (hv : Nat → Int × Nat) (max_nodes : Nat) :
    (xc_numainfo o hv max_nodes).st =
      if o.bounce_pre Buf.meminfo = 0 then
        if o.bounce_pre Buf.distance = 0 then
          ⟨[], [Event.alloc Buf.meminfo, Event.alloc Buf.distance,
            Event.invoke Op.XEN_SYSCTL_numainfo,
            Event.release Buf.meminfo, Event.release Buf.distance]⟩
        else ⟨[], [Event.alloc Buf.meminfo, Event.release Buf.meminfo]⟩
      else ⟨[], []⟩ := by
  by_cases h : o.bounce_pre Buf.meminfo = 0 <;> by_cases h1 : o.bounce_pre Buf.distance = 0 <;>
    by_cases h2 : (hv max_nodes).1 = 0 <;>
    simp [xc_numainfo, xc_hypercall_bounce_pre, xc_hypercall_bounce_post, invoked,
      Staging.init, h, h1, h2]

theorem getcpuinfo_st (o : Oracle) (hv : Int → Int × Nat) (max_cpus : Int)
    (nr_cpus : Option Int) :
    (xc_getcpuinfo o hv max_cpus nr_cpus).st =
      if o.bounce_pre Buf.info = 0 then
        ⟨[], [Event.alloc Buf.info, Event.invoke Op.XEN_SYSCTL_getcpuinfo,
          Event.release Buf.info]⟩
      else ⟨[], []⟩ := by
  by_cases h : o.bounce_pre Buf.info = 0 <;>
    simp [xc_getcpuinfo, xc_hypercall_bounce_pre, xc_hypercall_bounce_post, invoked,
      Staging.init, h]

theorem mca_op_st (o : Oracle) (rc : Int) :
    (xc_mca_op o rc).st =
      if o.bounce_pre Buf.mc = 0 then
        ⟨[], [Event.alloc Buf.mc, Event.invoke Op.HYPERVISOR_mca, Event.release Buf.mc]⟩
      else ⟨[], []⟩ := by
  by_cases h : o.bounce_pre Buf.mc = 0 <;>
    simp [xc_mca_op, xc_hypercall_bounce_pre, xc_hypercall_bounce_post, invoked,
      Staging.init, h]

theorem hvm_op_with_arg_st (op : Op) (o : Oracle) (rc : Int) :
    (hvm_op_with_arg op o rc).st =
      if o.buffer_alloc Buf.arg = true then
        ⟨[], [Event.alloc Buf.arg, Event.invoke op, Event.release Buf.arg]⟩
      else ⟨[], []⟩ := by
  by_cases h : o.buffer_alloc Buf.arg = true <;>
    simp [hvm_op_with_arg, xc_hypercall_buffer_alloc, xc_hypercall_buffer_free, invoked,
      Staging.init, h]

theorem track_dirty_vram_st (o : Oracle) (rc : Int) :
    (xc_hvm_track_dirty_vram o rc).st =
      if o.buffer_alloc Buf.arg = true then
        if o.bounce_pre Buf.dirty_bitmap = 0 then
          ⟨[], [Event.alloc Buf.arg, Event.alloc Buf.dirty_bitmap,
            Event.invoke Op.HVMOP_track_dirty_vram,
            Event.release Buf.arg, Event.release Buf.dirty_bitmap]⟩
        else ⟨[], [Event.alloc Buf.arg, Event.release Buf.arg]⟩
      else ⟨[], []⟩ := by
  by_cases h : o.buffer_alloc Buf.arg = true <;> by_cases h1 : o.bounce_pre Buf.dirty_bitmap = 0 <;>
    simp [xc_hvm_track_dirty_vram, xc_hypercall_buffer_alloc, xc_hypercall_buffer_free,
      xc_hypercall_bounce_pre, xc_hypercall_bounce_post, invoked, Staging.init, h, h1]

theorem pcitopoinfo_st (o : Oracle) (hv : Nat → xen_sysctl_pcitopoinfo → Int × Nat)
    (fuel num_devs : Nat) (r : Outcome PciLoop) (hr : xc_pcitopoinfo o hv fuel num_devs = some r) :
    r.st =
      if o.bounce_pre Buf.devs = 0 then
        if o.bounce_pre Buf.nodes = 0 then
          ⟨[], [Event.alloc Buf.devs, Event.alloc Buf.nodes] ++
            (r.out.calls.map (fun _ => Event.invoke Op.XEN_SYSCTL_pcitopoinfo) ++
            [Event.release Buf.devs, Event.release Buf.nodes])⟩
        else ⟨[], [Event.alloc Buf.devs, Event.release Buf.devs]⟩
      else ⟨[], []⟩ := by
  by_cases h : o.bounce_pre Buf.devs = 0 <;> by_cases h1 : o.bounce_pre Buf.nodes = 0 <;>
    simp [xc_pcitopoinfo, xc_hypercall_bounce_pre, xc_hypercall_bounce_post, invoked_each,
      Staging.init, h, h1] at hr ⊢
  · obtain ⟨_, hr⟩ := hr
    rw [← hr]
  · rw [← hr]
  · rw [← hr]
  · rw [← hr]

/-! ## Balance of allocations and releases -/

theorem count_alloc_invokes (b : Buf) (op : Op) (calls : List PciCall) :
    (calls.map (fun _ => Event.invoke op)).count (Event.alloc b) = 0 := by
  rw [List.count_eq_zero]
  simp

theorem count_release_invokes (b : Buf) (op : Op) (calls : List PciCall) :
    (calls.map (fun _ => Event.invoke op)).count (Event.release b) = 0 := by
  rw [List.count_eq_zero]
  simp

theorem allocations_invokes (op : Op) (calls : List PciCall) :
    allocations (calls.map (fun _ => Event.invoke op)) = 0 := by
  induction calls with
  | nil => rfl
  | cons c cs ih =>
    simp only [allocations, List.map_cons, List.filter_cons] at ih ⊢
    exact ih

theorem releases_invokes (op : Op) (calls : List PciCall) :
    releases (calls.map (fun _ => Event.invoke op)) = 0 := by
  induction calls with
  | nil => rfl
  | cons c cs ih =>
    simp only [releases, List.map_cons, List.filter_cons] at ih ⊢
    exact ih

theorem allocations_append (l1 l2 : List Event) :
    allocations (l1 ++ l2) = allocations l1 + allocations l2 := by
  simp [allocations, List.filter_append]

theorem releases_append (l1 l2 : List Event) :
    releases (l1 ++ l2) = releases l1 + releases l2 := by
  simp [releases, List.filter_append]

theorem balanced_around_invokes (b1 b2 : Buf) (hne : b1 ≠ b2) (op : Op) (calls : List PciCall) :
    Balanced ⟨[], [Event.alloc b1, Event.alloc b2] ++
      (calls.map (fun _ => Event.invoke op) ++ [Event.release b1, Event.release b2])⟩ := by
  refine ⟨rfl, ?_, ?_⟩
  · simp only [allocations_append, releases_append, allocations_invokes, releases_invokes]
    rfl
  · intro b
    simp only [List.count_append, count_alloc_invokes, count_release_invokes]
    by_cases h1 : b = b1 <;> by_cases h2 : b = b2
    · exact absurd (h1.symm.trans h2) hne
    · subst h1
      simp [List.count_cons, hne, Ne.symm hne]
    · subst h2
      simp [List.count_cons, hne, Ne.symm hne]
    · simp [List.count_cons, h1, h2, Ne.symm h1, Ne.symm h2]

theorem balanced_empty : Balanced ⟨[], []⟩ := by
  refine ⟨rfl, rfl, ?_⟩
  intro b
  simp

theorem balanced_one (b : Buf) : Balanced ⟨[], [Event.alloc b, Event.release b]⟩ := by
  refine ⟨rfl, rfl, ?_⟩
  intro c
  by_cases h : c = b
  · subst h; simp [List.count_cons]
  · simp [List.count_cons, h, Ne.symm h]

theorem balanced_one_invoke (b : Buf) (op : Op) :
    Balanced ⟨[], [Event.alloc b, Event.invoke op, Event.release b]⟩ := by
  refine ⟨rfl, rfl, ?_⟩
  intro c
  by_cases h : c = b
  · subst h; simp [List.count_cons]
  · simp [List.count_cons, h, Ne.symm h]

theorem balanced_two_invoke (b1 b2 : Buf) (hne : b1 ≠ b2) (op : Op) :
    Balanced ⟨[], [Event.alloc b1, Event.alloc b2, Event.invoke op,
      Event.release b1, Event.release b2]⟩ := by
  have := balanced_around_invokes b1 b2 hne op [⟨⟨0, 0, 0⟩, 0, 0⟩]
  simpa using this

theorem balanced_hvm_op (op : Op) (o : Oracle) (rc : Int) :
    Balanced (hvm_op_with_arg op o rc).st := by
  rw [hvm_op_with_arg_st]
  split
  · exact balanced_one_invoke _ _
  · exact balanced_empty

/-- C7. For every function of the file that stages buffers, every outcome of
its prepare steps and every outcome of the privileged invocation: when the
function returns, no descriptor still holds a staged region, the number of
staging allocations equals the number of staging releases, and each descriptor
has been released exactly as often as it was allocated, at most once.  For the
functions with two buffers, a buffer is released exactly once if its prepare
step succeeded and never otherwise. -/
theorem staging_is_balanced (o : Oracle) :
    (∀ hv sysctl v clear incremental,
      Balanced (xc_readconsolering o hv sysctl v clear incremental).st) ∧
    (∀ hv len, Balanced (xc_send_debug_keys o hv len).st) ∧
    (∀ hv max_cpus, Balanced (xc_cputopoinfo o hv max_cpus).st) ∧
    (∀ hv max_nodes, Balanced (xc_numainfo o hv max_nodes).st) ∧
    (∀ hv fuel num_devs r, xc_pcitopoinfo o hv fuel num_devs = some r → Balanced r.st) ∧
    (∀ hv max_cpus nr_cpus, Balanced (xc_getcpuinfo o hv max_cpus nr_cpus).st) ∧
    (∀ rc, Balanced (xc_mca_op o rc).st) ∧
    (∀ rc, Balanced (xc_hvm_set_pci_intx_level o rc).st ∧
      Balanced (xc_hvm_set_isa_irq_level o rc).st ∧
      Balanced (xc_hvm_set_pci_link_route o rc).st ∧
      Balanced (xc_hvm_inject_msi o rc).st ∧
      Balanced (xc_hvm_modified_memory o rc).st ∧
      Balanced (xc_hvm_set_mem_type o rc).st ∧
      Balanced (xc_hvm_inject_trap o rc).st) ∧
    (∀ rc, Balanced (xc_hvm_track_dirty_vram o rc).st) ∧
    (∀ hv max_nodes,
      (xc_numainfo o hv max_nodes).st.log.count (Event.release Buf.meminfo) =
        (if o.bounce_pre Buf.meminfo = 0 then 1 else 0) ∧
      (xc_numainfo o hv max_nodes).st.log.count (Event.release Buf.distance) =
        (if o.bounce_pre Buf.meminfo = 0 ∧ o.bounce_pre Buf.distance = 0 then 1 else 0)) ∧
    (∀ hv fuel num_devs r, xc_pcitopoinfo o hv fuel num_devs = some r →
      r.st.log.count (Event.release Buf.devs) =
        (if o.bounce_pre Buf.devs = 0 then 1 else 0) ∧
      r.st.log.count (Event.release Buf.nodes) =
        (if o.bounce_pre Buf.devs = 0 ∧ o.bounce_pre Buf.nodes = 0 then 1 else 0)) ∧
    (∀ rc,
      (xc_hvm_track_dirty_vram o rc).st.log.count (Event.release Buf.arg) =
        (if o.buffer_alloc Buf.arg = true then 1 else 0) ∧
      (xc_hvm_track_dirty_vram o rc).st.log.count (Event.release Buf.dirty_bitmap) =
        (if o.buffer_alloc Buf.arg = true ∧ o.bounce_pre Buf.dirty_bitmap = 0 then 1 else 0)) := by
  refine ⟨?_, ?_, ?_, ?_, ?_, ?_, ?_, ?_, ?_, ?_, ?_, ?_⟩
  · intro hv sysctl v clear incremental
    rw [readconsolering_st]
    split
    · exact balanced_one_invoke _ _
    · exact balanced_empty
  · intro hv len
    rw [send_debug_keys_st]
    split
    · exact balanced_one_invoke _ _
    · exact balanced_empty
  · intro hv max_cpus
    rw [cputopoinfo_st]
    split
    · exact balanced_one_invoke _ _
    · exact balanced_empty
  · intro hv max_nodes
    rw [numainfo_st]
    split
    · split
      · exact balanced_two_invoke _ _ (by decide) _
      · exact balanced_one _
    · exact balanced_empty
  · intro hv fuel num_devs r hr
    rw [pcitopoinfo_st o hv fuel num_devs r hr]
    split
    · split
      · exact balanced_around_invokes _ _ (by decide) _ _
      · exact balanced_one _
    · exact balanced_empty
  · intro hv max_cpus nr_cpus
    rw [getcpuinfo_st]
    split
    · exact balanced_one_invoke _ _
    · exact balanced_empty
  · intro rc
    rw [mca_op_st]
    split
    · exact balanced_one_invoke _ _
    · exact balanced_empty
  · intro rc
    exact ⟨balanced_hvm_op _ o rc, balanced_hvm_op _ o rc, balanced_hvm_op _ o rc,
      balanced_hvm_op _ o rc, balanced_hvm_op _ o rc, balanced_hvm_op _ o rc,
      balanced_hvm_op _ o rc⟩
  · intro rc
    rw [track_dirty_vram_st]
    split
    · split
      · exact balanced_two_invoke _ _ (by decide) _
      · exact balanced_one _
    · exact balanced_empty
  · intro hv max_nodes
    rw [numainfo_st]
    by_cases h : o.bounce_pre Buf.meminfo = 0 <;> by_cases h1 : o.bounce_pre Buf.distance = 0 <;>
      simp [h, h1, List.count_cons]
  · intro hv fuel num_devs r hr
    rw [pcitopoinfo_st o hv fuel num_devs r hr]
    by_cases h : o.bounce_pre Buf.devs = 0 <;> by_cases h1 : o.bounce_pre Buf.nodes = 0 <;>
      simp [h, h1, List.count_cons, List.count_append, List.count_replicate]
  · intro rc
    rw [track_dirty_vram_st]
    by_cases h : o.buffer_alloc Buf.arg = true <;>
      by_cases h1 : o.bounce_pre Buf.dirty_bitmap = 0 <;>
      simp [h, h1, List.count_cons]

/-- C7 at a concrete input: both buffers of `xc_pcitopoinfo` staged, 7 devices,
the third invocation fails. -/
theorem staging_is_balanced_witness :
    xc_pcitopoinfo ⟨fun _ => 0, fun _ => true⟩ failing_third 9 7 =
      some ⟨-1, ⟨true, -1, 4, [⟨⟨7, 0, 0⟩, 0, 2⟩, ⟨⟨5, 2, 2⟩, 0, 2⟩, ⟨⟨3, 4, 4⟩, -1, 3⟩]⟩,
        ⟨[], [Event.alloc Buf.devs, Event.alloc Buf.nodes,
          Event.invoke Op.XEN_SYSCTL_pcitopoinfo, Event.invoke Op.XEN_SYSCTL_pcitopoinfo,
          Event.invoke Op.XEN_SYSCTL_pcitopoinfo,
          Event.release Buf.devs, Event.release Buf.nodes]⟩⟩ ∧
    Balanced ⟨[], [Event.alloc Buf.devs, Event.alloc Buf.nodes,
          Event.invoke Op.XEN_SYSCTL_pcitopoinfo, Event.invoke Op.XEN_SYSCTL_pcitopoinfo,
          Event.invoke Op.XEN_SYSCTL_pcitopoinfo,
          Event.release Buf.devs, Event.release Buf.nodes]⟩ :=
  ⟨by decide,
   (staging_is_balanced ⟨fun _ => 0, fun _ => true⟩).2.2.2.2.1 failing_third 9 7
      ⟨-1, ⟨true, -1, 4, [⟨⟨7, 0, 0⟩, 0, 2⟩, ⟨⟨5, 2, 2⟩, 0, 2⟩, ⟨⟨3, 4, 4⟩, -1, 3⟩]⟩,
        ⟨[], [Event.alloc Buf.devs, Event.alloc Buf.nodes,
          Event.invoke Op.XEN_SYSCTL_pcitopoinfo, Event.invoke Op.XEN_SYSCTL_pcitopoinfo,
          Event.invoke Op.XEN_SYSCTL_pcitopoinfo,
          Event.release Buf.devs, Event.release Buf.nodes]⟩⟩ (by decide)⟩

/-! ## Failure of a prepare step -/

/-- C6. For `xc_readconsolering`, `xc_send_debug_keys`, `xc_cputopoinfo`,
`xc_numainfo`, `xc_pcitopoinfo`, `xc_getcpuinfo` and `xc_hvm_track_dirty_vram`:
if one of the prepare steps of the function fails (`xc_hypercall_bounce_pre`
returns non-zero, or `xc_hypercall_buffer_alloc` returns NULL), the function
issues no privileged invocation, returns a non-zero status and leaves the
caller's scalar output variables as they were. -/
theorem prepare_failure_aborts (o : Oracle) :
    (o.bounce_pre Buf.buffer ≠ 0 → ∀ hv sysctl v clear incremental,
      invocations (xc_readconsolering o hv sysctl v clear incremental).st.log = 0 ∧
      (xc_readconsolering o hv sysctl v clear incremental).ret ≠ 0 ∧
      (xc_readconsolering o hv sysctl v clear incremental).out = v) ∧
    (o.bounce_pre Buf.keys ≠ 0 → ∀ hv len,
      invocations (xc_send_debug_keys o hv len).st.log = 0 ∧
      (xc_send_debug_keys o hv len).ret ≠ 0) ∧
    (o.bounce_pre Buf.cputopo ≠ 0 → ∀ hv max_cpus,
      invocations (xc_cputopoinfo o hv max_cpus).st.log = 0 ∧
      (xc_cputopoinfo o hv max_cpus).ret ≠ 0 ∧
      (xc_cputopoinfo o hv max_cpus).out = max_cpus) ∧
    (o.bounce_pre Buf.meminfo ≠ 0 ∨ o.bounce_pre Buf.distance ≠ 0 → ∀ hv max_nodes,
      invocations (xc_numainfo o hv max_nodes).st.log = 0 ∧
      (xc_numainfo o hv max_nodes).ret ≠ 0 ∧
      (xc_numainfo o hv max_nodes).out = max_nodes) ∧
    (o.bounce_pre Buf.devs ≠ 0 ∨ o.bounce_pre Buf.nodes ≠ 0 → ∀ hv fuel num_devs,
      ∃ r, xc_pcitopoinfo o hv fuel num_devs = some r ∧
        invocations r.st.log = 0 ∧ r.out.calls = [] ∧ r.ret ≠ 0) ∧
    (o.bounce_pre Buf.info ≠ 0 → ∀ hv max_cpus nr_cpus,
      invocations (xc_getcpuinfo o hv max_cpus nr_cpus).st.log = 0 ∧
      (xc_getcpuinfo o hv max_cpus nr_cpus).ret ≠ 0 ∧
      (xc_getcpuinfo o hv max_cpus nr_cpus).out = nr_cpus) ∧
    (o.buffer_alloc Buf.arg = false ∨ o.bounce_pre Buf.dirty_bitmap ≠ 0 → ∀ rc,
      invocations (xc_hvm_track_dirty_vram o rc).st.log = 0 ∧
      (xc_hvm_track_dirty_vram o rc).ret ≠ 0) := by
  refine ⟨?_, ?_, ?_, ?_, ?_, ?_, ?_⟩
  · intro h hv sysctl v clear incremental
    rw [readconsolering_st, if_neg h]
    simp [xc_readconsolering, xc_hypercall_bounce_pre, h, invocations]
  · intro h hv len
    rw [send_debug_keys_st, if_neg h]
    simp [xc_send_debug_keys, xc_hypercall_bounce_pre, h, invocations]
  · intro h hv max_cpus
    rw [cputopoinfo_st, if_neg h]
    simp [xc_cputopoinfo, xc_hypercall_bounce_pre, h, invocations]
  · intro h hv max_nodes
    rw [numainfo_st]
    by_cases h0 : o.bounce_pre Buf.meminfo = 0
    · have h1 : o.bounce_pre Buf.distance ≠ 0 := by
        rcases h with h | h
        · exact absurd h0 h
        · exact h
      simp [xc_numainfo, xc_hypercall_bounce_pre, h0, h1, invocations]
    · simp [xc_numainfo, xc_hypercall_bounce_pre, h0, invocations]
  · intro h hv fuel num_devs
    by_cases h0 : o.bounce_pre Buf.devs = 0
    · have h1 : o.bounce_pre Buf.nodes ≠ 0 := by
        rcases h with h | h
        · exact absurd h0 h
        · exact h
      simp [xc_pcitopoinfo, xc_hypercall_bounce_pre, xc_hypercall_bounce_post, Staging.init,
        h0, h1, invocations]
    · simp [xc_pcitopoinfo, xc_hypercall_bounce_pre, xc_hypercall_bounce_post, Staging.init,
        h0, invocations]
  · intro h hv max_cpus nr_cpus
    rw [getcpuinfo_st, if_neg h]
    simp [xc_getcpuinfo, xc_hypercall_bounce_pre, h, invocations]
  · intro h rc
    rw [track_dirty_vram_st]
    by_cases h0 : o.buffer_alloc Buf.arg = true
    · have h1 : o.bounce_pre Buf.dirty_bitmap ≠ 0 := by
        rcases h with h | h
        · rw [h0] at h; cases h
        · exact h
      simp [xc_hvm_track_dirty_vram, xc_hypercall_buffer_alloc, xc_hypercall_bounce_pre, h0, h1,
        invocations]
    · simp [xc_hvm_track_dirty_vram, xc_hypercall_buffer_alloc, h0, invocations]

/-- C6 at a concrete input: every prepare step fails with -1 (NULL for the
allocation); `xc_numainfo` on `*max_nodes = 4` and `xc_readconsolering` on
`*pnr_chars = 16`, `*pindex = 3`. -/
theorem prepare_failure_aborts_witness :
    ((-1 : Int) ≠ 0) ∧
    (xc_numainfo ⟨fun _ => -1, fun _ => false⟩ (fun n => (0, n + 1)) 4).ret ≠ 0 ∧
    (xc_numainfo ⟨fun _ => -1, fun _ => false⟩ (fun n => (0, n + 1)) 4).out = 4 ∧
    invocations (xc_numainfo ⟨fun _ => -1, fun _ => false⟩ (fun n => (0, n + 1)) 4).st.log = 0 ∧
    (xc_readconsolering ⟨fun _ => -1, fun _ => false⟩ (fun _ => (0, ⟨0, 0, 9, 9⟩))
      ⟨0, 0, 0, 0⟩ ⟨16, some 3⟩ 0 1).out = ⟨16, some 3⟩ :=
  ⟨by decide,
   (((prepare_failure_aborts ⟨fun _ => -1, fun _ => false⟩).2.2.2.1
      (Or.inl (by decide))) (fun n => (0, n + 1)) 4).2.1,
   (((prepare_failure_aborts ⟨fun _ => -1, fun _ => false⟩).2.2.2.1
      (Or.inl (by decide))) (fun n => (0, n + 1)) 4).2.2,
   (((prepare_failure_aborts ⟨fun _ => -1, fun _ => false⟩).2.2.2.1
      (Or.inl (by decide))) (fun n => (0, n + 1)) 4).1,
   (((prepare_failure_aborts ⟨fun _ => -1, fun _ => false⟩).1 (by decide))
      (fun _ => (0, ⟨0, 0, 9, 9⟩)) ⟨0, 0, 0, 0⟩ ⟨16, some 3⟩ 0 1).2.2⟩

/-! ## Status propagation and decoded outputs -/

/-- C8, as amended. Once its buffer is staged, each of `xc_readconsolering`,
`xc_cputopoinfo`, `xc_numainfo` and `xc_getcpuinfo` returns exactly the status
of the privileged invocation.  When that status is non-zero, `*pnr_chars`,
`*pindex`, `*max_cpus` and `*max_nodes` hold the values they had before the
call; when it is zero they hold the decoded fields of the envelope. -/
theorem status_and_outputs (o : Oracle) :
    (o.bounce_pre Buf.buffer = 0 → ∀ hv sysctl v clear incremental,
      (xc_readconsolering o hv sysctl v clear incremental).ret =
        (hv (readconsole_envelope sysctl v clear incremental)).1 ∧
      ((hv (readconsole_envelope sysctl v clear incremental)).1 ≠ 0 →
        (xc_readconsolering o hv sysctl v clear incremental).out = v) ∧
      ((hv (readconsole_envelope sysctl v clear incremental)).1 = 0 →
        (xc_readconsolering o hv sysctl v clear incremental).out =
          ⟨(hv (readconsole_envelope sysctl v clear incremental)).2.count,
            v.pindex.map
              (fun _ => (hv (readconsole_envelope sysctl v clear incremental)).2.index)⟩)) ∧
    (o.bounce_pre Buf.cputopo = 0 → ∀ hv max_cpus,
      (xc_cputopoinfo o hv max_cpus).ret = (hv max_cpus).1 ∧
      ((hv max_cpus).1 ≠ 0 → (xc_cputopoinfo o hv max_cpus).out = max_cpus) ∧
      ((hv max_cpus).1 = 0 → (xc_cputopoinfo o hv max_cpus).out = (hv max_cpus).2)) ∧
    (o.bounce_pre Buf.meminfo = 0 → o.bounce_pre Buf.distance = 0 → ∀ hv max_nodes,
      (xc_numainfo o hv max_nodes).ret = (hv max_nodes).1 ∧
      ((hv max_nodes).1 ≠ 0 → (xc_numainfo o hv max_nodes).out = max_nodes) ∧
      ((hv max_nodes).1 = 0 → (xc_numainfo o hv max_nodes).out = (hv max_nodes).2)) ∧
    (o.bounce_pre Buf.info = 0 → ∀ hv max_cpus nr_cpus,
      (xc_getcpuinfo o hv max_cpus nr_cpus).ret = (hv max_cpus).1) := by
  refine ⟨?_, ?_, ?_, ?_⟩
  · intro h hv sysctl v clear incremental
    refine ⟨?_, ?_, ?_⟩
    · simp [xc_readconsolering, xc_hypercall_bounce_pre, h]
    · intro hs
      simp [xc_readconsolering, xc_hypercall_bounce_pre, h, hs]
    · intro hs
      cases hp : v.pindex <;> simp [xc_readconsolering, xc_hypercall_bounce_pre, h, hs, hp]
  · intro h hv max_cpus
    by_cases hs : (hv max_cpus).1 = 0 <;>
      simp [xc_cputopoinfo, xc_hypercall_bounce_pre, h, hs]
  · intro h h1 hv max_nodes
    by_cases hs : (hv max_nodes).1 = 0 <;>
      simp [xc_numainfo, xc_hypercall_bounce_pre, h, h1, hs]
  · intro h hv max_cpus nr_cpus
    simp [xc_getcpuinfo, xc_hypercall_bounce_pre, h]

/-- C8 at a concrete input: buffers staged, the invocation fails with -1 and
leaves 9 in the count fields of the envelope. -/
theorem status_and_outputs_witness :
    (xc_cputopoinfo ⟨fun _ => 0, fun _ => true⟩ (fun _ => (-1, 9)) 4).ret = -1 ∧
    (xc_cputopoinfo ⟨fun _ => 0, fun _ => true⟩ (fun _ => (-1, 9)) 4).out = 4 ∧
    (xc_numainfo ⟨fun _ => 0, fun _ => true⟩ (fun _ => (-1, 9)) 4).out = 4 ∧
    (xc_readconsolering ⟨fun _ => 0, fun _ => true⟩ (fun _ => (-1, ⟨0, 0, 9, 9⟩))
      ⟨0, 0, 0, 0⟩ ⟨16, some 3⟩ 0 1).out = ⟨16, some 3⟩ :=
  ⟨(((status_and_outputs ⟨fun _ => 0, fun _ => true⟩).2.1 rfl) (fun _ => (-1, 9)) 4).1,
   (((status_and_outputs ⟨fun _ => 0, fun _ => true⟩).2.1 rfl) (fun _ => (-1, 9)) 4).2.1
      (by decide),
   (((status_and_outputs ⟨fun _ => 0, fun _ => true⟩).2.2.1 rfl rfl) (fun _ => (-1, 9)) 4).2.1
      (by decide),
   (((status_and_outputs ⟨fun _ => 0, fun _ => true⟩).1 rfl)
      (fun _ => (-1, ⟨0, 0, 9, 9⟩)) ⟨0, 0, 0, 0⟩ ⟨16, some 3⟩ 0 1).2.1 (by decide)⟩

/-- C8 fails as stated: with its buffer staged, `xc_getcpuinfo` called with
`*nr_cpus = 5` returns the non-zero status -1 of the invocation and has
overwritten `*nr_cpus` with the 7 found in the envelope. -/
theorem getcpuinfo_writes_on_failure :
    (xc_getcpuinfo ⟨fun _ => 0, fun _ => true⟩ (fun _ => (-1, 7)) 8 (some 5)).ret = -1 ∧
    (xc_getcpuinfo ⟨fun _ => 0, fun _ => true⟩ (fun _ => (-1, 7)) 8 (some 5)).out = some 7 ∧
    (xc_getcpuinfo ⟨fun _ => 0, fun _ => true⟩ (fun _ => (-1, 7)) 8 (some 5)).out ≠ some 5 := by
  decide

/-! ## Two-phase query -/

/-- C5, as amended. For every capacity c and every reply of the privileged
side, `xc_lockprof_query` passes c as `max_elem` and returns exactly the status
of the invocation; whenever the reply reports nr_elem <= c, the count written
to `*n_elems` is that nr_elem, hence <= c. -/
theorem lockprof_query_within_capacity
    (do_sysctl : xen_sysctl_lockprof_op → Int × xen_sysctl_lockprof_op)
    (sysctl : xen_sysctl_lockprof_op) (c : Nat) :
    (xc_lockprof_query do_sysctl sysctl c).1 =
      (do_sysctl ⟨c, sysctl.nr_elem⟩).1 ∧
    ((do_sysctl ⟨c, sysctl.nr_elem⟩).2.nr_elem ≤ c →
      (xc_lockprof_query do_sysctl sysctl c).2 =
        (do_sysctl ⟨c, sysctl.nr_elem⟩).2.nr_elem ∧
      (xc_lockprof_query do_sysctl sysctl c).2 ≤ c) :=
  ⟨rfl, fun h => ⟨rfl, h⟩⟩

/-- C5 at concrete inputs: capacity 8; a reply of status 0 reporting 5
elements, and a reply of status -1 reporting 9 elements. -/
theorem lockprof_query_within_capacity_witness :
    xc_lockprof_query (fun e => (0, ⟨e.max_elem, 5⟩)) ⟨0, 0⟩ 8 = (0, 5) ∧
    ((xc_lockprof_query (fun e => (0, ⟨e.max_elem, 5⟩)) ⟨0, 0⟩ 8).2 = 5 ∧
      (xc_lockprof_query (fun e => (0, ⟨e.max_elem, 5⟩)) ⟨0, 0⟩ 8).2 ≤ 8) ∧
    (xc_lockprof_query (fun e => (-1, ⟨e.max_elem, 9⟩)) ⟨0, 0⟩ 8).1 = -1 :=
  ⟨by decide,
   (lockprof_query_within_capacity (fun e => (0, ⟨e.max_elem, 5⟩)) ⟨0, 0⟩ 8).2 (by decide),
   (lockprof_query_within_capacity (fun e => (-1, ⟨e.max_elem, 9⟩)) ⟨0, 0⟩ 8).1⟩

/-- C5 fails as stated: with capacity 1, a privileged side that returns
status 0 and reports 2 elements makes `xc_lockprof_query` return 0 with
`*n_elems = 2`, a count above the capacity. -/
theorem lockprof_query_overreport :
    xc_lockprof_query (fun e => (0, ⟨e.max_elem, 2⟩)) ⟨0, 0⟩ 1 = (0, 2) ∧
    (xc_lockprof_query (fun e => (0, ⟨e.max_elem, 2⟩)) ⟨0, 0⟩ 1).1 = 0 ∧
    ¬ (xc_lockprof_query (fun e => (0, ⟨e.max_elem, 2⟩)) ⟨0, 0⟩ 1).2 ≤ 1 := by
  decide

end XcMisc
